import Mathlib

/-!
Verification of the api-proxy repository (Deno/TypeScript reverse proxies).

The repository bundles several closely related proxy programs:
* `main.ts` part 1 (lines 1-328): a z-library reverse proxy with a
  cookie-based password gate (`handler`, `isValidAuthCookie`,
  `handleLoginSubmission`, `modifyResponseHeaders`, `modifyCookieString`).
* `main.ts` part 2 (lines 329-993): the api-proxy with SHA-256 token
  authentication (`main`, `isAuthenticated`, `handleLogin`,
  `extractPrefixAndRest` with descending-length sort).
* `src/unnamed/part_000`: an api-proxy variant without authentication and
  without the sort in `extractPrefixAndRest` (and without the query string
  in the forwarded target URL).
* `main.ts` part 5 (lines 2037-2175): another variant whose
  `extractPrefixAndRest` (lines 2168-2175) also does not sort.

JavaScript strings are embedded as `List Char`.  Platform primitives that
the programs call but do not define (SHA-256 via `crypto.subtle.digest`,
WHATWG `new URL`, `encodeURIComponent`) are passed in as function/oracle
parameters; every piece of repository logic is translated directly.
-/

/-- JavaScript strings, embedded as lists of UTF-16-ish characters. -/
abbrev Str := List Char

/-- Coerce a Lean string literal to the embedding type. -/
def str (s : String) : Str := s.data

/-- JS whitespace test used by `String.prototype.trim`. -/
def isWs (c : Char) : Bool := c.isWhitespace

/-- Drop leading whitespace (left half of JS `trim`). -/
def trimLeft (s : Str) : Str := s.dropWhile isWs

/-- Drop trailing whitespace (right half of JS `trim`). -/
def trimRight (s : Str) : Str := (s.reverse.dropWhile isWs).reverse

/-- JS `String.prototype.trim`. -/
def trim (s : Str) : Str := trimRight (trimLeft s)

/-- JS `String.prototype.toLowerCase` (per-character lowering). -/
def lower (s : Str) : Str := s.map Char.toLower

/-- JS `String.prototype.split(c)` for a single-character separator:
`"a;;b".split(';') = ["a","","b"]`, `"".split(';') = [""]`. -/
def splitOnChar (c : Char) : Str → List Str
  | [] => [[]]
  | x :: xs =>
    let r := splitOnChar c xs
    if x = c then [] :: r
    else
      match r with
      | [] => [[x]]
      | y :: ys => (x :: y) :: ys

/-- JS `Array.prototype.join(sep)`. -/
def joinSep (sep : Str) : List Str → Str
  | [] => []
  | [x] => x
  | x :: y :: ys => x ++ sep ++ joinSep sep (y :: ys)

/-- JS `String.prototype.includes` (substring test). -/
def includesStr (needle : Str) : Str → Bool
  | [] => needle.isEmpty
  | c :: t => needle.isPrefixOf (c :: t) || includesStr needle t

/-- Worker for `dedupFirst`: `seen` holds the values already emitted. -/
def dedupFirstAux : List Str → List Str → List Str
  | _, [] => []
  | seen, x :: xs =>
    if x ∈ seen then dedupFirstAux seen xs
    else x :: dedupFirstAux (x :: seen) xs

/-- JS `[...new Set(list)]`: deduplicate keeping first occurrences in order. -/
def dedupFirst (l : List Str) : List Str := dedupFirstAux [] l

/-- First value for a key in an association list (JS `FormData.get`:
`null` when absent, first entry when duplicated). -/
def lookupForm (form : List (Str × Str)) (k : Str) : Option Str :=
  (form.find? (fun e => e.1 == k)).map (fun e => e.2)

/-! ## Prefix resolution (`extractPrefixAndRest`)

Two shapes occur in the repository.  The api-proxy in `main.ts`
(lines 641-649) first sorts the prefix list by descending length
(`prefixes.sort((a, b) => b.length - a.length)`, a stable sort per the
ECMAScript spec); the variants in `src/unnamed/part_000` (lines 98-105)
and `main.ts` lines 2168-2175 iterate the list in its given order. -/

/-- One stable insertion step for the descending-length sort. -/
def insertLenDesc (x : Str) : List Str → List Str
  | [] => [x]
  | y :: ys => if y.length ≤ x.length then x :: y :: ys else y :: insertLenDesc x ys

/-- Stable sort by descending string length
(JS `prefixes.sort((a, b) => b.length - a.length)`). -/
def sortLenDesc : List Str → List Str
  | [] => []
  | x :: xs => insertLenDesc x (sortLenDesc xs)

/-- `extractPrefixAndRest` as written in `src/unnamed/part_000` lines 98-105
and `main.ts` lines 2168-2175: return the first listed entry that is a
string-prefix of the pathname, together with `pathname.slice(entry.length)`;
`[null, null]` (here `none`) when nothing matches. -/
def extractPrefixAndRestNoSort (pathname : Str) : List Str → Option (Str × Str)
  | [] => none
  | p :: ps =>
    if p.isPrefixOf pathname then some (p, pathname.drop p.length)
    else extractPrefixAndRestNoSort pathname ps

/-- `extractPrefixAndRest` as written in `main.ts` lines 641-649: sort the
prefixes by descending length, then scan for the first match. -/
def extractPrefixAndRest (pathname : Str) (keys : List Str) : Option (Str × Str) :=
  extractPrefixAndRestNoSort pathname (sortLenDesc keys)

/-! ## Route tables (the `apiMapping` constants) -/

/-- `apiMapping` of the api-proxy (`main.ts` lines 334-353), in source order. -/
def apiMapping2 : List (Str × Str) := [
  (str "/anthropic", str "https://api.anthropic.com"),
  (str "/cerebras", str "https://api.cerebras.ai"),
  (str "/cohere", str "https://api.cohere.ai"),
  (str "/discord", str "https://discord.com/api"),
  (str "/fireworks", str "https://api.fireworks.ai"),
  (str "/gemini", str "https://generativelanguage.googleapis.com"),
  (str "/groq", str "https://api.groq.com/openai"),
  (str "/huggingface", str "https://api-inference.huggingface.co"),
  (str "/meta", str "https://www.meta.ai/api"),
  (str "/novita", str "https://api.novita.ai"),
  (str "/nvidia", str "https://integrate.api.nvidia.com"),
  (str "/oaipro", str "https://api.oaipro.com"),
  (str "/openai", str "https://api.openai.com"),
  (str "/openrouter", str "https://openrouter.ai/api"),
  (str "/portkey", str "https://api.portkey.ai"),
  (str "/reka", str "https://api.reka.ai"),
  (str "/telegram", str "https://api.telegram.org"),
  (str "/together", str "https://api.together.xyz"),
  (str "/xai", str "https://api.x.ai")]

/-- `Object.keys(apiMapping)` for the api-proxy (insertion order). -/
def apiKeys2 : List Str := apiMapping2.map Prod.fst

/-- `apiMapping` of `src/unnamed/part_000` (lines 5-21), in source order. -/
def part000Map : List (Str × Str) := [
  (str "/discord", str "https://discord.com/api"),
  (str "/telegram", str "https://api.telegram.org"),
  (str "/openai", str "https://api.openai.com"),
  (str "/claude", str "https://api.anthropic.com"),
  (str "/gemini", str "https://generativelanguage.googleapis.com"),
  (str "/meta", str "https://www.meta.ai/api"),
  (str "/groq", str "https://api.groq.com/openai"),
  (str "/xai", str "https://api.x.ai"),
  (str "/cohere", str "https://api.cohere.ai"),
  (str "/huggingface", str "https://api-inference.huggingface.co"),
  (str "/together", str "https://api.together.xyz"),
  (str "/novita", str "https://api.novita.ai"),
  (str "/portkey", str "https://api.portkey.ai"),
  (str "/fireworks", str "https://api.fireworks.ai"),
  (str "/openrouter", str "https://openrouter.ai/api")]

/-- `Object.keys(apiMapping)` for `src/unnamed/part_000`. -/
def part000Keys : List Str := part000Map.map Prod.fst

/-- `Object.keys(apiMapping)` of the variant at `main.ts` lines 2041-2058
(the caller of the `extractPrefixAndRest` at lines 2168-2175). -/
def doc4Keys : List Str := part000Keys ++ [str "/perplexity"]

/-- `apiMapping[prefixKey]`: association-list lookup; a missing key renders
as the string `"undefined"` in the template literal, as in JavaScript
(unreachable for keys produced by `extractPrefixAndRest`). -/
def lookupTable (t : List (Str × Str)) (k : Str) : Str :=
  match t.find? (fun e => e.1 == k) with
  | some e => e.2
  | none => str "undefined"

/-! ## The api-proxy (`main.ts` lines 329-993)

`generateAuthToken` computes the SHA-256 hex digest of the password via the
platform primitive `crypto.subtle.digest`; it is abstracted as a function
parameter `hash : Str → Str` (no claim depends on the digest's internals,
only on `token = generateAuthToken(password)`). -/

/-- `AUTH_COOKIE_NAME` of the api-proxy (`main.ts` line 359). -/
def AUTH2 : Str := str "api_proxy_auth_token"

/-- First match of the regex `NAME=([^;]+)` (as used by `isAuthenticated`,
`main.ts` line 402): scan for the first position where the literal `pat`
(the cookie name followed by `=`) occurs and is followed by at least one
non-`;` character; capture the run of non-`;` characters. -/
def regexTokenMatch (pat : Str) : Str → Option Str
  | [] => none
  | c :: cs =>
    if pat.isPrefixOf (c :: cs) then
      let tok := ((c :: cs).drop pat.length).takeWhile (fun d => d != ';')
      if tok.isEmpty then regexTokenMatch pat cs else some tok
    else regexTokenMatch pat cs

/-- JS truthiness of the configured password (`Deno.env.get` yields
`undefined` when unset; the empty string is falsy). -/
def pwEnabled : Option Str → Bool
  | none => false
  | some s => !s.isEmpty

/-- `isAuthenticated` (`main.ts` lines 396-411): with no password configured
every request is authenticated; otherwise extract the token from the
`Cookie` header via the regex and compare it with `generateAuthToken`. -/
def isAuthenticated (hash : Str → Str) (password : Option Str)
    (cookieHeader : Option Str) : Bool :=
  if pwEnabled password = false then true
  else
    match password with
    | none => true
    | some pw =>
      match regexTokenMatch (AUTH2 ++ str "=") (cookieHeader.getD []) with
      | none => false
      | some tok => tok == hash pw

/-- Observable parts of an api-proxy `Response` relevant to the claims:
status, `Location` header, `Set-Cookie` header, whether the body is the
login form, and whether that form shows an error indicator. -/
structure Resp2 where
  status : Nat
  location : Option Str
  setCookie : Option Str
  isLoginForm : Bool
  errorShown : Bool
deriving DecidableEq

/-- `generateLoginPage(errorMessage)` (`main.ts` lines 418-528): a 401
response rendering the login form, with an error paragraph exactly when
the message is nonempty. -/
def generateLoginPage (errorMessage : Str) : Resp2 :=
  ⟨401, none, none, true, !errorMessage.isEmpty⟩

/-- The `Set-Cookie` value issued by `handleLogin` (`main.ts` line 547). -/
def authCookieValue2 (token : Str) : Str :=
  AUTH2 ++ str "=" ++ token ++ str "; Path=/; HttpOnly; Secure; SameSite=Lax; Max-Age=86400"

/-- `handleLogin` (`main.ts` lines 535-563): 500 when no password is
configured; on the correct password, a 302 to `/` carrying the session
cookie; otherwise the login form with an error message.  (The model's
forms always parse; the `catch` branch for malformed form bodies is
outside every claim.) -/
def handleLogin (hash : Str → Str) (password : Option Str)
    (form : List (Str × Str)) : Resp2 :=
  if pwEnabled password = false then ⟨500, none, none, false, false⟩
  else
    match password with
    | none => ⟨500, none, none, false, false⟩
    | some pw =>
      if lookupForm form (str "password") = some pw then
        ⟨302, some (str "/"), some (authCookieValue2 (hash pw)), false, false⟩
      else generateLoginPage (str "密码无效。")

/-- `allowedHeaders` of the api-proxy forwarding step (`main.ts` line 612). -/
def allowedHeaders2 : List Str := [str "accept", str "content-type", str "authorization"]

/-- `Headers.set`: replace any entry with the same (case-insensitive) name
and append the new pair. -/
def setHeader (hs : List (Str × Str)) (k v : Str) : List (Str × Str) :=
  hs.filter (fun h => !(lower h.1 == lower k)) ++ [(k, v)]

/-- The allow-list header copy of the api-proxy forwarding step
(`main.ts` lines 611-617). -/
def filterAllowedHeaders (hs : List (Str × Str)) : List (Str × Str) :=
  hs.foldl (fun acc kv =>
    if allowedHeaders2.contains (lower kv.1) then setHeader acc kv.1 kv.2 else acc) []

/-- The arguments of the `fetch` call the proxy performs. -/
structure Forwarded where
  url : Str
  method : Str
  headers : List (Str × Str)
  body : Option Str
deriving DecidableEq

/-- The routing decision of the api-proxy `main` (actions; `forward` is the
only action that invokes the upstream `fetch`). -/
inductive Act where
  | loginSubmit
  | loginPage
  | dashboard
  | robots
  | staticFile (p : Str)
  | notFound
  | forward (f : Forwarded)
deriving DecidableEq

/-- An inbound request as the api-proxy observes it. -/
structure Req2 where
  method : Str
  pathname : Str
  search : Str
  cookieHeader : Option Str
  headers : List (Str × Str)
  body : Option Str
  form : List (Str × Str)

/-- Configuration of the api-proxy (environment variables). -/
structure Config2 where
  password : Option Str
  domain : Str

/-- The routing of `main` after the authentication gate
(`main.ts` lines 587-623): dashboard, robots, static files, then prefix
resolution and forwarding to `apiMapping[prefix] + rest + url.search`. -/
def routeAfterAuth (req : Req2) : Act :=
  if req.pathname = str "/" ∨ req.pathname = str "/index.html" then .dashboard
  else if req.pathname = str "/robots.txt" then .robots
  else if (str "/public/").isPrefixOf req.pathname = true then .staticFile req.pathname
  else
    match extractPrefixAndRest req.pathname apiKeys2 with
    | none => .notFound
    | some (p, r) =>
      .forward ⟨lookupTable apiMapping2 p ++ r ++ req.search, req.method,
                filterAllowedHeaders req.headers, req.body⟩

/-- `main` of the api-proxy (`main.ts` lines 566-639), as a routing
function: the authentication gate (login submission, then cookie check)
followed by `routeAfterAuth`. -/
def mainRoute (hash : Str → Str) (cfg : Config2) (req : Req2) : Act :=
  if pwEnabled cfg.password = false then routeAfterAuth req
  else if req.pathname = str "/login" ∧ req.method = str "POST" then .loginSubmit
  else if isAuthenticated hash cfg.password req.cookieHeader = true then routeAfterAuth req
  else .loginPage

/-- The routing of `src/unnamed/part_000` `main` (lines 38-95): no
authentication, and the forwarded URL is `apiMapping[prefix] + rest`
without the query string. -/
def part000Route (req : Req2) : Act :=
  if req.pathname = str "/" ∨ req.pathname = str "/index.html" then .dashboard
  else if req.pathname = str "/robots.txt" then .robots
  else if (str "/public/").isPrefixOf req.pathname = true then .staticFile req.pathname
  else
    match extractPrefixAndRestNoSort req.pathname part000Keys with
    | none => .notFound
    | some (p, r) =>
      .forward ⟨lookupTable part000Map p ++ r, req.method,
                filterAllowedHeaders req.headers, req.body⟩

/-! ## Upstream failure handling -/

/-- A JavaScript exception as the `catch` blocks inspect it:
whether it is a `TypeError`, and its message. -/
structure JsError where
  isTypeError : Bool
  message : Str
deriving DecidableEq

/-- `error instanceof TypeError && error.message.includes('fetch failed')`
(`main.ts` line 87): the connection-failure test of the z-library proxy. -/
def isFetchFailedError (e : JsError) : Bool :=
  e.isTypeError && includesStr (str "fetch failed") e.message

/-- Observable part of an upstream response. -/
structure Upstream where
  status : Nat
  body : Str
deriving DecidableEq

/-- A `fetch` try/catch: on success relay the upstream status and body, on
an exception apply the `catch` block. -/
def forwardOutcome (catcher : JsError → Nat × Str) :
    Except JsError Upstream → Nat × Str
  | .ok u => (u.status, u.body)
  | .error e => catcher e

/-- The 502 body of the z-library proxy (`main.ts` line 88); it mentions
only the target host, never the exception. -/
def connFailMsg (targetHost : Str) : Str :=
  str "Proxy error: Could not connect to origin server (" ++ targetHost ++
    str "). Please try again later."

/-- The `catch` block of the z-library `handler` (`main.ts` lines 85-91):
502 for connection failures, 500 otherwise. -/
def handlerCatch (targetHost : Str) (e : JsError) : Nat × Str :=
  if isFetchFailedError e = true then (502, connFailMsg targetHost)
  else (500, str "Proxy error occurred. Check logs.")

/-- The `catch` block of the api-proxy `main` (`main.ts` lines 635-638):
every exception becomes a 500 with a fixed body. -/
def apiMainCatch (_e : JsError) : Nat × Str :=
  (500, str "Internal Server Error: Proxy failed.")

/-- The `catch` block of `src/unnamed/part_000` `main` (lines 91-94):
every exception becomes a 500 with a fixed body. -/
def part000Catch (_e : JsError) : Nat × Str :=
  (500, str "Internal Server Error")

/-! ## The z-library proxy (`main.ts` lines 1-328) -/

/-- `AUTH_COOKIE_NAME` of the z-library proxy (`main.ts` line 6). -/
def AUTH1 : Str := str "proxy_auth_session"

/-- `ZLIB_BASE_URL` (`main.ts` line 5). -/
def ZLIB : Str := str "z-library.sk"

/-- Configuration of the z-library proxy (environment variables). -/
structure Config1 where
  password : Option Str
  domain : Str

/-- An inbound request as the z-library `handler` observes it. -/
structure Req1 where
  method : Str
  pathname : Str
  search : Str
  cookieHeader : Option Str
  form : List (Str × Str)
  body : Option Str

/-- `getCookies` from `std/http/cookie.ts`: split the `Cookie` header on
`;`, split each piece on `=`, trim the key, re-join the value on `=`;
assignments into the record let the last duplicate win (see
`lookupCookie`). -/
def getCookies (h : Option Str) : List (Str × Str) :=
  match h with
  | none => []
  | some s =>
    (splitOnChar ';' s).map (fun kv =>
      match splitOnChar '=' kv with
      | [] => ([], [])
      | k :: vs => (trim k, joinSep (str "=") vs))

/-- Lookup in the cookie record: JS object assignment means the last entry
with a given key wins. -/
def lookupCookie (cs : List (Str × Str)) (k : Str) : Option Str :=
  cs.foldl (fun acc c => if c.1 = k then some c.2 else acc) none

/-- `isValidAuthCookie` (`main.ts` lines 97-100):
`cookies[AUTH_COOKIE_NAME] === "ok"`. -/
def isValidAuthCookie (cs : List (Str × Str)) : Bool :=
  lookupCookie cs AUTH1 == some (str "ok")

/-- The `Cookie` object built by `handleLoginSubmission`
(`main.ts` lines 158-167) and by `modifyResponseHeaders` for the
`siteLanguage` cookie. -/
structure CookieRec where
  name : Str
  value : Str
  path : Str
  domain : Str
  httpOnly : Bool
  secure : Bool
  sameSite : Str
  maxAge : Nat
deriving DecidableEq

/-- Observable parts of a z-library proxy `Response`: status, `Location`,
the structured `Set-Cookie` (when set via the std `setCookie`), whether
the body is the login form and whether it shows the error paragraph.
(The login form's hidden `redirect_to` field content is presentation and
is elided.) -/
structure Resp1 where
  status : Nat
  location : Option Str
  setCookie : Option CookieRec
  isLoginForm : Bool
  errorShown : Bool
deriving DecidableEq

/-- `handleLoginPage(showError, attemptedUrl)` (`main.ts` lines 103-142):
a 401 login form, with the error paragraph iff `showError`. -/
def handleLoginPage (showError : Bool) : Resp1 :=
  ⟨401, none, none, true, showError⟩

/-- The session cookie issued on successful login
(`main.ts` lines 158-167): value `"ok"`, 30-day max-age. -/
def authCookieRec (domain : Str) : CookieRec :=
  ⟨AUTH1, str "ok", str "/", domain, true, true, str "Lax", 86400 * 30⟩

/-- `redirect_to` form field with the JS `|| "/"` default (both a missing
field and the empty string fall back to `/`). -/
def redirectToOf (form : List (Str × Str)) : Str :=
  match lookupForm form (str "redirect_to") with
  | none => str "/"
  | some s => if s.isEmpty = true then str "/" else s

/-- `handleLoginSubmission` (`main.ts` lines 145-184): 500 when no password
is configured; on the correct password a 302 whose `Location` is the
submitted `redirect_to` (default `/`) with the session cookie; otherwise
the login form with the error paragraph. -/
def handleLoginSubmission (cfg : Config1) (form : List (Str × Str)) : Resp1 :=
  if pwEnabled cfg.password = false then ⟨500, none, none, false, false⟩
  else
    match cfg.password with
    | none => ⟨500, none, none, false, false⟩
    | some pw =>
      let redirectTo := redirectToOf form
      if lookupForm form (str "password") = some pw then
        ⟨302, some redirectTo, some (authCookieRec cfg.domain), false, false⟩
      else handleLoginPage true

/-- The routing decision of the z-library `handler`. -/
inductive Act1 where
  | statusOk
  | loginSubmit
  | loginPage (attempted : Str)
  | forward (targetHost : Str) (method : Str) (body : Option Str)
deriving DecidableEq

/-- The proxy leg of `handler` (`main.ts` lines 54-71): the target host
depends on the `lang` cookie; the `fetch` uses the request's method and
body (headers via `getModifiedRequestHeaders` are elided — no claim
inspects them). -/
def proxyAct (cookies : List (Str × Str)) (req : Req1) : Act1 :=
  let lang := lookupCookie cookies (str "lang")
  let targetHost := if lang = some (str "zh") then str "zh." ++ ZLIB else ZLIB
  .forward targetHost req.method req.body

/-- `handler` (`main.ts` lines 28-92) as a routing function: `/status`
first, then the authentication gate, then the proxy leg. -/
def handlerRoute (cfg : Config1) (req : Req1) : Act1 :=
  if req.pathname = str "/status" then .statusOk
  else
    let cookies := getCookies req.cookieHeader
    if pwEnabled cfg.password = true then
      if isValidAuthCookie cookies = true then proxyAct cookies req
      else if req.method = str "POST" ∧ req.pathname = str "/auth-login" then .loginSubmit
      else .loginPage (req.pathname ++ req.search)
    else proxyAct cookies req

/-! ## Set-Cookie rewriting (`modifyCookieString`, `main.ts` lines 271-305) -/

/-- The regex `^([^=]+)=(.*)$` applied to the first cookie part: the name is
the maximal nonempty run before the first `=`, the value everything after
it; no match when there is no `=` or the name would be empty.  (When the
`dropWhile` result is nonempty its head is necessarily the first `=` of
the string, so the cons pattern is exactly the regex's mandatory `=`.) -/
def matchNameValue (s : Str) : Option (Str × Str) :=
  let n := s.takeWhile (fun c => c != '=')
  match s.dropWhile (fun c => c != '=') with
  | [] => none
  | _ :: v => if n.isEmpty then none else some (n, v)

/-- Parse a raw `Set-Cookie` line the way `modifyCookieString` does:
reject the empty string, split on `;`, trim every part, parse the first
part as `name=value`; the remaining trimmed parts are the attributes. -/
def parseCookieLine (s : Str) : Option (Str × Str × List Str) :=
  if s.isEmpty = true then none
  else
    match (splitOnChar ';' s).map trim with
    | [] => none
    | p0 :: rest =>
      match matchNameValue p0 with
      | none => none
      | some (n, v) => some (n, v, rest)

/-- The cookie name of a `Set-Cookie` line, as `modifyCookieString`
itself would parse it. -/
def cookieNameOf (s : Str) : Option Str :=
  (parseCookieLine s).map (fun t => t.1)

/-- The `Domain` attribute the proxy injects. -/
def dAttrOf (d : Str) : Str := str "Domain=" ++ d

/-- The attribute loop of `modifyCookieString` (`main.ts` lines 285-298):
replace `Domain=...` with the proxy domain (recording that a domain was
seen), skip `Secure`/`SameSite=...`, keep
`Path=`/`Expires=`/`Max-Age=`/`HttpOnly` and any other nonempty
attribute. -/
def cookieAttrLoop (d : Str) : List Str → List Str × Bool
  | [] => ([], false)
  | a :: as =>
    let rest := cookieAttrLoop d as
    if (str "domain=").isPrefixOf (lower a) = true then (dAttrOf d :: rest.1, true)
    else if ((str "secure").isPrefixOf (lower a) ||
             (str "samesite=").isPrefixOf (lower a)) = true then rest
    else if ((str "path=").isPrefixOf (lower a) ||
             (str "expires=").isPrefixOf (lower a) ||
             (str "max-age=").isPrefixOf (lower a) ||
             (str "httponly").isPrefixOf (lower a)) = true then (a :: rest.1, rest.2)
    else if a.isEmpty = false then (a :: rest.1, rest.2)
    else rest

/-- `modifyCookieString` up to the final `join`: the deduplicated part list
`[...new Set(modifiedAttributes)]`.  `none` when the line is empty, fails
to parse, or its name is the proxy's own session-cookie name. -/
def modifyCookieParts (s d : Str) : Option (List Str) :=
  match parseCookieLine s with
  | none => none
  | some (n, v, attrs) =>
    if n = AUTH1 then none
    else
      let lp := cookieAttrLoop d attrs
      some (dedupFirst ((n ++ '=' :: v) ::
        (lp.1 ++ (if lp.2 = true then [] else [dAttrOf d]) ++
          [str "Secure", str "SameSite=None"])))

/-- `modifyCookieString` (`main.ts` lines 271-305): the rewritten
`Set-Cookie` line, `.join('; ')` of the deduplicated parts. -/
def modifyCookieString (s d : Str) : Option Str :=
  (modifyCookieParts s d).map (joinSep (str "; "))

/-! ## Response-header rewriting (`modifyResponseHeaders`, lines 188-245) -/

/-- The components of a WHATWG `URL` that the rewriting inspects.  `new URL`
itself is a platform primitive; callers pass a resolver oracle
`Str → Option URLParts` standing for `loc => new URL(loc, targetUrl)`
(`none` models the constructor throwing). -/
structure URLParts where
  hostname : Str
  pathname : Str
  search : Str
  hash : Str
deriving DecidableEq

/-- The `Location` rewriting step(`main.ts` lines 190-203): if resolution
succeeds and the resolved hostname ends with `ZLIB_BASE_URL`, replace the
header with `pathname + search + hash`; otherwise (including when `new
URL` throws — there the code re-sets the original value when it starts
with `/` and leaves it alone otherwise, which is the same value either
way) keep the original. -/
def rewriteLocation (resolved : Option URLParts) (originalLocation : Str) : Str :=
  match resolved with
  | some u =>
    if ZLIB.isSuffixOf u.hostname = true then u.pathname ++ u.search ++ u.hash
    else originalLocation
  | none =>
    if (str "/").isPrefixOf originalLocation = true then originalLocation
    else originalLocation

/-- The upstream response headers the rewriting touches. -/
structure RespHeaders where
  location : Option Str
  setCookies : List Str
  vary : Option Str
deriving DecidableEq

/-- The `siteLanguage` cookie string appended on every response
(`main.ts` lines 226-234, serialized by `getCookieString`,
lines 308-318); `enc` is the platform `encodeURIComponent`. -/
def siteLanguageCookieStr (enc : Str → Str) (d : Str) (lang : Option Str) : Str :=
  let v := if lang = some (str "zh") then str "zh" else str "en"
  str "siteLanguage=" ++ enc v ++
    str "; Max-Age=31536000; Domain=" ++ d ++ str "; Path=/; Secure; SameSite=None"

/-- The `Vary` merge (`main.ts` lines 237-244): ensure a case-insensitive
`Cookie` token is present. -/
def varyWithCookie (v : Option Str) : Str :=
  match v with
  | none => str "Cookie"
  | some s =>
    if ((splitOnChar ',' s).map (fun t => lower (trim t))).contains (str "cookie")
    then s
    else s ++ str ", Cookie"

/-- `modifyResponseHeaders` (`main.ts` lines 188-245) on the claim-relevant
headers: rewrite `Location`, replace the `Set-Cookie` list by the
rewritten upstream cookies plus the `siteLanguage` cookie, merge `Vary`.
(The deletions of `X-Frame-Options`/`Content-Security-Policy`/
`Strict-Transport-Security` concern headers outside this record and no
claim.) -/
def modifyRespHeaders (resolve : Str → Option URLParts) (enc : Str → Str)
    (proxyDomain : Str) (lang : Option Str) (h : RespHeaders) : RespHeaders :=
  ⟨h.location.map (fun loc => rewriteLocation (resolve loc) loc),
   h.setCookies.filterMap (fun c => modifyCookieString c proxyDomain) ++
     [siteLanguageCookieStr enc proxyDomain lang],
   some (varyWithCookie h.vary)⟩

/-! ## Basic lemmas about the string embedding -/

theorem isPrefixOf_iff_exists (p s : Str) :
    p.isPrefixOf s = true ↔ ∃ t, p ++ t = s := by
  induction p generalizing s with
  | nil =>
    constructor
    · intro _; exact ⟨s, rfl⟩
    · intro _; simp [List.isPrefixOf]
  | cons a as ih =>
    cases s with
    | nil =>
      constructor
      · intro h; simp [List.isPrefixOf] at h
      · rintro ⟨t, h⟩; simp at h
    | cons b bs =>
      simp only [List.isPrefixOf, Bool.and_eq_true, beq_iff_eq, ih]
      constructor
      · rintro ⟨rfl, t, rfl⟩; exact ⟨t, rfl⟩
      · rintro ⟨t, h⟩
        injection h with h1 h2
        exact ⟨h1, t, h2⟩

theorem append_drop_of_isPrefixOf {p s : Str} (h : p.isPrefixOf s = true) :
    p ++ s.drop p.length = s := by
  obtain ⟨t, rfl⟩ := (isPrefixOf_iff_exists p s).mp h
  rw [List.drop_left]

theorem isPrefixOf_self_append (p t : Str) : p.isPrefixOf (p ++ t) = true :=
  (isPrefixOf_iff_exists p (p ++ t)).mpr ⟨t, rfl⟩

theorem isPrefixOf_append_cases {p s t : Str}
    (h : p.isPrefixOf (s ++ t) = true) :
    p.isPrefixOf s = true ∨ s.isPrefixOf p = true := by
  obtain ⟨u, hu⟩ := (isPrefixOf_iff_exists p (s ++ t)).mp h
  rcases List.append_eq_append_iff.mp hu with ⟨w, hw, _⟩ | ⟨w, hw, _⟩
  · exact Or.inl ((isPrefixOf_iff_exists p s).mpr ⟨w, hw.symm⟩)
  · exact Or.inr ((isPrefixOf_iff_exists s p).mpr ⟨w, hw.symm⟩)

theorem length_lt_of_strict_pfx {a b : Str}
    (h : a.isPrefixOf b = true) (hne : a ≠ b) : a.length < b.length := by
  obtain ⟨t, rfl⟩ := (isPrefixOf_iff_exists a b).mp h
  cases t with
  | nil => exact absurd (by simp) hne
  | cons c cs => simp [Nat.lt_add_of_pos_right]

/-! ## Lemmas about `extractPrefixAndRest` -/

theorem extractNoSort_eq_some {path : Str} {l : List Str} {p r : Str}
    (h : extractPrefixAndRestNoSort path l = some (p, r)) :
    p ∈ l ∧ p.isPrefixOf path = true ∧ r = path.drop p.length := by
  induction l with
  | nil => simp [extractPrefixAndRestNoSort] at h
  | cons q t ih =>
    by_cases hq : q.isPrefixOf path = true
    · simp only [extractPrefixAndRestNoSort, hq, if_pos] at h
      obtain ⟨rfl, rfl⟩ := Prod.mk.injEq .. ▸ Option.some.injEq .. ▸ h
      exact ⟨List.mem_cons_self _ _, hq, rfl⟩
    · simp only [extractPrefixAndRestNoSort, hq, if_neg, Bool.not_eq_true] at h
      obtain ⟨hm, hp, hr⟩ := ih h
      exact ⟨List.mem_cons_of_mem _ hm, hp, hr⟩

theorem extractNoSort_isSome_iff (path : Str) (l : List Str) :
    (extractPrefixAndRestNoSort path l).isSome = true ↔
      ∃ p, p ∈ l ∧ p.isPrefixOf path = true := by
  induction l with
  | nil => simp [extractPrefixAndRestNoSort]
  | cons q t ih =>
    by_cases hq : q.isPrefixOf path = true
    · simp only [extractPrefixAndRestNoSort, hq, if_pos, Option.isSome_some,
        true_iff]
      exact ⟨q, List.mem_cons_self _ _, hq⟩
    · simp only [extractPrefixAndRestNoSort, hq, if_neg, Bool.not_eq_true, ih]
      constructor
      · rintro ⟨p, hm, hp⟩; exact ⟨p, List.mem_cons_of_mem _ hm, hp⟩
      · rintro ⟨p, hm, hp⟩
        rcases List.mem_cons.mp hm with rfl | hm
        · exact absurd hp hq
        · exact ⟨p, hm, hp⟩

theorem mem_insertLenDesc {x y : Str} {l : List Str} :
    x ∈ insertLenDesc y l ↔ x = y ∨ x ∈ l := by
  induction l with
  | nil => simp [insertLenDesc]
  | cons z t ih =>
    by_cases hz : z.length ≤ y.length
    · simp [insertLenDesc, hz, List.mem_cons]
    · simp only [insertLenDesc, hz, if_neg, not_false_iff, List.mem_cons, ih]
      tauto

theorem mem_sortLenDesc {x : Str} {l : List Str} :
    x ∈ sortLenDesc l ↔ x ∈ l := by
  induction l with
  | nil => simp [sortLenDesc]
  | cons y t ih =>
    simp [sortLenDesc, mem_insertLenDesc, ih, List.mem_cons]

theorem pairwise_insertLenDesc {x : Str} {l : List Str}
    (h : l.Pairwise (fun a b => b.length ≤ a.length)) :
    (insertLenDesc x l).Pairwise (fun a b => b.length ≤ a.length) := by
  induction l with
  | nil => simp [insertLenDesc]
  | cons y t ih =>
    rcases List.pairwise_cons.mp h with ⟨hy, ht⟩
    by_cases hz : y.length ≤ x.length
    · simp only [insertLenDesc, hz, if_pos]
      refine List.pairwise_cons.mpr ⟨?_, h⟩
      intro z hz'
      rcases List.mem_cons.mp hz' with rfl | hz'
      · exact hz
      · exact Nat.le_trans (hy z hz') hz
    · simp only [insertLenDesc, hz, if_neg, not_false_iff]
      refine List.pairwise_cons.mpr ⟨?_, ih ht⟩
      intro z hz'
      rcases mem_insertLenDesc.mp hz' with rfl | hz'
      · exact Nat.le_of_lt (Nat.lt_of_not_le hz)
      · exact hy z hz'

theorem pairwise_sortLenDesc (l : List Str) :
    (sortLenDesc l).Pairwise (fun a b => b.length ≤ a.length) := by
  induction l with
  | nil => simp [sortLenDesc]
  | cons y t ih => exact pairwise_insertLenDesc ih

theorem extractNoSort_maxLen {path : Str} {l : List Str} {p r : Str}
    (hsort : l.Pairwise (fun a b => b.length ≤ a.length))
    (h : extractPrefixAndRestNoSort path l = some (p, r)) :
    ∀ q ∈ l, q.isPrefixOf path = true → q.length ≤ p.length := by
  induction l with
  | nil => simp [extractPrefixAndRestNoSort] at h
  | cons z t ih =>
    rcases List.pairwise_cons.mp hsort with ⟨hz, ht⟩
    by_cases hm : z.isPrefixOf path = true
    · simp only [extractPrefixAndRestNoSort, hm, if_pos] at h
      obtain ⟨rfl, _⟩ := Prod.mk.injEq .. ▸ Option.some.injEq .. ▸ h
      intro q hq _
      rcases List.mem_cons.mp hq with rfl | hq
      · exact Nat.le_refl _
      · exact hz q hq
    · simp only [extractPrefixAndRestNoSort, hm, if_neg, Bool.not_eq_true] at h
      intro q hq hqp
      rcases List.mem_cons.mp hq with rfl | hq
      · exact absurd hqp hm
      · exact ih ht h q hq hqp

theorem extract_eq_some_facts {path : Str} {keys : List Str} {p r : Str}
    (h : extractPrefixAndRest path keys = some (p, r)) :
    p ∈ keys ∧ p.isPrefixOf path = true ∧ p ++ r = path ∧
      ∀ q ∈ keys, q.isPrefixOf path = true → q.length ≤ p.length := by
  obtain ⟨hm, hp, hr⟩ := extractNoSort_eq_some h
  refine ⟨mem_sortLenDesc.mp hm, hp, ?_, ?_⟩
  · rw [hr]; exact append_drop_of_isPrefixOf hp
  · intro q hq hqp
    exact extractNoSort_maxLen (pairwise_sortLenDesc keys) h q
      (mem_sortLenDesc.mpr hq) hqp

theorem extract_isSome_iff (path : Str) (keys : List Str) :
    (extractPrefixAndRest path keys).isSome = true ↔
      ∃ p, p ∈ keys ∧ p.isPrefixOf path = true := by
  rw [extractPrefixAndRest, extractNoSort_isSome_iff]
  constructor
  · rintro ⟨p, hm, hp⟩; exact ⟨p, mem_sortLenDesc.mp hm, hp⟩
  · rintro ⟨p, hm, hp⟩; exact ⟨p, mem_sortLenDesc.mpr hm, hp⟩

/-! ## Facts about the concrete route tables -/

theorem apiKeys2_no_pfx_root : ∀ q ∈ apiKeys2, q.isPrefixOf (str "/") = false := by decide

theorem apiKeys2_no_pfx_index : ∀ q ∈ apiKeys2, q.isPrefixOf (str "/index.html") = false := by
  decide

theorem apiKeys2_no_pfx_robots : ∀ q ∈ apiKeys2, q.isPrefixOf (str "/robots.txt") = false := by
  decide

theorem apiKeys2_no_pfx_login : ∀ q ∈ apiKeys2, q.isPrefixOf (str "/login") = false := by
  decide

theorem apiKeys2_public_pair :
    ∀ q ∈ apiKeys2, q.isPrefixOf (str "/public/") = false ∧
      (str "/public/").isPrefixOf q = false := by decide

theorem part000Keys_no_pfx_root : ∀ q ∈ part000Keys, q.isPrefixOf (str "/") = false := by
  decide

theorem part000Keys_no_pfx_index :
    ∀ q ∈ part000Keys, q.isPrefixOf (str "/index.html") = false := by decide

theorem part000Keys_no_pfx_robots :
    ∀ q ∈ part000Keys, q.isPrefixOf (str "/robots.txt") = false := by decide

theorem part000Keys_public_pair :
    ∀ q ∈ part000Keys, q.isPrefixOf (str "/public/") = false ∧
      (str "/public/").isPrefixOf q = false := by decide

theorem apiKeys2_no_match_public :
    ∀ q ∈ apiKeys2, ∀ t : Str, q.isPrefixOf (str "/public/" ++ t) = false := by
  intro q hq t
  by_contra hcon
  rw [Bool.not_eq_false] at hcon
  rcases isPrefixOf_append_cases hcon with h | h
  · simp [(apiKeys2_public_pair q hq).1] at h
  · simp [(apiKeys2_public_pair q hq).2] at h

theorem part000Keys_no_match_public :
    ∀ q ∈ part000Keys, ∀ t : Str, q.isPrefixOf (str "/public/" ++ t) = false := by
  intro q hq t
  by_contra hcon
  rw [Bool.not_eq_false] at hcon
  rcases isPrefixOf_append_cases hcon with h | h
  · simp [(part000Keys_public_pair q hq).1] at h
  · simp [(part000Keys_public_pair q hq).2] at h

/-- A pathname matched by a configured api-proxy key is none of the
statically routed special paths. -/
theorem pathname_not_special_api {path p : Str}
    (hm : p ∈ apiKeys2) (hp : p.isPrefixOf path = true) :
    path ≠ str "/" ∧ path ≠ str "/index.html" ∧ path ≠ str "/robots.txt" ∧
      (str "/public/").isPrefixOf path = false ∧ path ≠ str "/login" := by
  refine ⟨?_, ?_, ?_, ?_, ?_⟩
  · rintro rfl; simp [apiKeys2_no_pfx_root p hm] at hp
  · rintro rfl; simp [apiKeys2_no_pfx_index p hm] at hp
  · rintro rfl; simp [apiKeys2_no_pfx_robots p hm] at hp
  · by_contra hcon
    rw [Bool.not_eq_false] at hcon
    obtain ⟨t, ht⟩ := (isPrefixOf_iff_exists _ _).mp hcon
    rw [← ht] at hp
    simp [apiKeys2_no_match_public p hm t] at hp
  · rintro rfl; simp [apiKeys2_no_pfx_login p hm] at hp

/-- A pathname matched by a configured `part_000` key is none of the
statically routed special paths. -/
theorem pathname_not_special_p000 {path p : Str}
    (hm : p ∈ part000Keys) (hp : p.isPrefixOf path = true) :
    path ≠ str "/" ∧ path ≠ str "/index.html" ∧ path ≠ str "/robots.txt" ∧
      (str "/public/").isPrefixOf path = false := by
  refine ⟨?_, ?_, ?_, ?_⟩
  · rintro rfl; simp [part000Keys_no_pfx_root p hm] at hp
  · rintro rfl; simp [part000Keys_no_pfx_index p hm] at hp
  · rintro rfl; simp [part000Keys_no_pfx_robots p hm] at hp
  · by_contra hcon
    rw [Bool.not_eq_false] at hcon
    obtain ⟨t, ht⟩ := (isPrefixOf_iff_exists _ _).mp hcon
    rw [← ht] at hp
    simp [part000Keys_no_match_public p hm t] at hp

/-! ## Routing lemmas -/

theorem routeAfterAuth_eq_forward {req : Req2} {p r : Str}
    (h : extractPrefixAndRest req.pathname apiKeys2 = some (p, r)) :
    routeAfterAuth req = .forward ⟨lookupTable apiMapping2 p ++ r ++ req.search,
      req.method, filterAllowedHeaders req.headers, req.body⟩ := by
  obtain ⟨hm, hp, _, _⟩ := extract_eq_some_facts h
  obtain ⟨h1, h2, h3, h4, _⟩ := pathname_not_special_api hm hp
  unfold routeAfterAuth
  rw [if_neg (by tauto), if_neg h3, if_neg (by simp [h4]), h]

theorem part000Route_eq_forward {req : Req2} {p r : Str}
    (h : extractPrefixAndRestNoSort req.pathname part000Keys = some (p, r)) :
    part000Route req = .forward ⟨lookupTable part000Map p ++ r,
      req.method, filterAllowedHeaders req.headers, req.body⟩ := by
  obtain ⟨hm, hp, _⟩ := extractNoSort_eq_some h
  obtain ⟨h1, h2, h3, h4⟩ := pathname_not_special_p000 hm hp
  unfold part000Route
  rw [if_neg (by tauto), if_neg h3, if_neg (by simp [h4]), h]

/-! ## Lemmas about `takeWhile`, `dropWhile`, `trim`, `splitOnChar` -/

theorem takeWhile_append_of_all {p : Char → Bool} {xs : Str} {y : Char} (zs : Str)
    (hxs : ∀ c ∈ xs, p c = true) (hy : p y = false) :
    (xs ++ y :: zs).takeWhile p = xs := by
  induction xs with
  | nil => simp [List.takeWhile_cons, hy]
  | cons a as ih =>
    have ha : p a = true := hxs a (List.mem_cons_self _ _)
    simp only [List.cons_append, List.takeWhile_cons, ha, if_pos]
    rw [ih (fun c hc => hxs c (List.mem_cons_of_mem _ hc))]

theorem dropWhile_append_of_all {p : Char → Bool} {xs : Str} {y : Char} (zs : Str)
    (hxs : ∀ c ∈ xs, p c = true) (hy : p y = false) :
    (xs ++ y :: zs).dropWhile p = y :: zs := by
  induction xs with
  | nil => simp [List.dropWhile_cons, hy]
  | cons a as ih =>
    have ha : p a = true := hxs a (List.mem_cons_self _ _)
    simp only [List.cons_append, List.dropWhile_cons, ha, if_pos]
    exact ih (fun c hc => hxs c (List.mem_cons_of_mem _ hc))

theorem head?_takeWhile_eq {p : Char → Bool} {l : Str} {a : Char}
    (h : (l.takeWhile p).head? = some a) : l.head? = some a := by
  cases l with
  | nil => simp [List.takeWhile] at h
  | cons b bs =>
    rw [List.takeWhile_cons] at h
    by_cases hb : p b = true
    · rw [if_pos hb] at h
      simpa using h
    · rw [if_neg hb] at h
      simp at h

theorem head?_dropWhile_not {p : Char → Bool} {l : Str} {c : Char}
    (h : (l.dropWhile p).head? = some c) : p c = false := by
  induction l with
  | nil => simp [List.dropWhile] at h
  | cons a as ih =>
    rw [List.dropWhile_cons] at h
    by_cases ha : p a = true
    · rw [if_pos ha] at h
      exact ih h
    · rw [if_neg ha] at h
      simp only [List.head?_cons, Option.some.injEq] at h
      rw [← h]
      exact Bool.not_eq_true _ ▸ ha

theorem trimLeft_head_not_ws {s : Str} {c : Char}
    (h : (trimLeft s).head? = some c) : isWs c = false :=
  head?_dropWhile_not h

theorem trimRight_getLast_not_ws {s : Str} {c : Char}
    (h : (trimRight s).getLast? = some c) : isWs c = false := by
  rw [trimRight, List.getLast?_reverse] at h
  exact head?_dropWhile_not h

theorem trimRight_append (s : Str) :
    trimRight s ++ (s.reverse.takeWhile isWs).reverse = s := by
  calc trimRight s ++ (s.reverse.takeWhile isWs).reverse
      = (s.reverse.takeWhile isWs ++ s.reverse.dropWhile isWs).reverse := by
        rw [List.reverse_append, trimRight]
    _ = s.reverse.reverse := by rw [List.takeWhile_append_dropWhile]
    _ = s := List.reverse_reverse s

theorem head?_trimRight {s : Str} {c : Char}
    (h : (trimRight s).head? = some c) : s.head? = some c := by
  conv_lhs => rw [← trimRight_append s]
  rw [List.head?_append, h]
  rfl

theorem trim_head_not_ws {s : Str} {c : Char}
    (h : (trim s).head? = some c) : isWs c = false :=
  trimLeft_head_not_ws (head?_trimRight h)

theorem trim_getLast_not_ws {s : Str} {c : Char}
    (h : (trim s).getLast? = some c) : isWs c = false :=
  trimRight_getLast_not_ws h

theorem trimLeft_eq_self {s : Str}
    (hh : ∀ c, s.head? = some c → isWs c = false) : trimLeft s = s := by
  cases s with
  | nil => rfl
  | cons a as =>
    rw [trimLeft, List.dropWhile_cons, if_neg (by simp [hh a rfl])]

theorem trimRight_eq_self {s : Str}
    (hl : ∀ c, s.getLast? = some c → isWs c = false) : trimRight s = s := by
  rw [trimRight]
  cases hrev : s.reverse with
  | nil =>
    have : s = [] := by
      rw [← List.reverse_reverse s, hrev]; rfl
    rw [this]; rfl
  | cons a as =>
    have ha : isWs a = false := by
      apply hl
      rw [← List.head?_reverse, hrev]; rfl
    rw [List.dropWhile_cons, if_neg (by simp [ha]), ← hrev, List.reverse_reverse]

theorem trim_eq_self {s : Str}
    (hh : ∀ c, s.head? = some c → isWs c = false)
    (hl : ∀ c, s.getLast? = some c → isWs c = false) : trim s = s := by
  rw [trim, trimLeft_eq_self hh, trimRight_eq_self hl]

theorem mem_trimRight {s : Str} {a : Char} (h : a ∈ trimRight s) : a ∈ s := by
  rw [trimRight, List.mem_reverse] at h
  rw [← List.mem_reverse]
  exact List.Sublist.mem h (List.dropWhile_sublist _)

theorem mem_trim {s : Str} {a : Char} (h : a ∈ trim s) : a ∈ s := by
  rw [trim] at h
  exact List.Sublist.mem (mem_trimRight h) (List.dropWhile_sublist _)

theorem splitOnChar_cons (c x : Char) (xs : Str) :
    splitOnChar c (x :: xs) =
      if x = c then [] :: splitOnChar c xs
      else
        match splitOnChar c xs with
        | [] => [[x]]
        | y :: ys => (x :: y) :: ys := rfl

theorem splitOnChar_ne_nil (c : Char) (s : Str) : splitOnChar c s ≠ [] := by
  cases s with
  | nil => simp [splitOnChar]
  | cons x xs =>
    rw [splitOnChar_cons]
    by_cases hx : x = c
    · simp [hx]
    · rw [if_neg hx]
      cases splitOnChar c xs <;> simp

theorem not_mem_of_mem_splitOnChar {c : Char} {s part : Str}
    (h : part ∈ splitOnChar c s) : c ∉ part := by
  induction s generalizing part with
  | nil =>
    simp only [splitOnChar, List.mem_singleton] at h
    rw [h]
    exact List.not_mem_nil c
  | cons x xs ih =>
    rw [splitOnChar_cons] at h
    by_cases hx : x = c
    · rw [if_pos hx] at h
      rcases List.mem_cons.mp h with rfl | h
      · exact List.not_mem_nil c
      · exact ih h
    · rw [if_neg hx] at h
      cases hr : splitOnChar c xs with
      | nil => exact absurd hr (splitOnChar_ne_nil c xs)
      | cons y ys =>
        rw [hr] at h
        rcases List.mem_cons.mp h with rfl | h
        · intro hc
          rcases List.mem_cons.mp hc with rfl | hc
          · exact hx rfl
          · exact ih (hr ▸ List.mem_cons_self y ys) hc
        · exact ih (hr ▸ List.mem_cons_of_mem y h)

theorem splitOnChar_of_not_mem {c : Char} {a : Str} (h : c ∉ a) :
    splitOnChar c a = [a] := by
  induction a with
  | nil => rfl
  | cons x xs ih =>
    have hx : ¬(x = c) := fun he => h (he ▸ List.mem_cons_self x xs)
    rw [splitOnChar_cons, if_neg hx,
      ih (fun hc => h (List.mem_cons_of_mem x hc))]

theorem splitOnChar_append_cons {c : Char} {a : Str} (b : Str) (h : c ∉ a) :
    splitOnChar c (a ++ c :: b) = a :: splitOnChar c b := by
  induction a with
  | nil =>
    rw [List.nil_append, splitOnChar_cons, if_pos rfl]
  | cons x xs ih =>
    have hx : ¬(x = c) := fun he => h (he ▸ List.mem_cons_self x xs)
    rw [List.cons_append, splitOnChar_cons, if_neg hx,
      ih (fun hc => h (List.mem_cons_of_mem x hc))]


/-! ## Lemmas about `matchNameValue` and `cookieNameOf` -/

theorem matchNameValue_eq_some {s n v : Str}
    (h : matchNameValue s = some (n, v)) :
    s = n ++ '=' :: v ∧ n ≠ [] ∧ '=' ∉ n := by
  simp only [matchNameValue] at h
  cases hdrop : s.dropWhile (fun c => c != '=') with
  | nil => rw [hdrop] at h; simp at h
  | cons e v0 =>
    rw [hdrop] at h
    have he : e = '=' := by
      have := head?_dropWhile_not (p := fun c => c != '=') (l := s)
        (c := e) (by rw [hdrop]; rfl)
      simpa using this
    subst he
    replace h :
        (if (s.takeWhile (fun c => c != '=')).isEmpty = true then none
         else some (s.takeWhile (fun c => c != '='), v0)) = some (n, v) := h
    by_cases hni : (s.takeWhile (fun c => c != '=')).isEmpty = true
    · rw [if_pos hni] at h; simp at h
    · rw [if_neg hni] at h
      simp only [Option.some.injEq, Prod.mk.injEq] at h
      obtain ⟨h1, h2⟩ := h
      subst h1; subst h2
      refine ⟨?_, ?_, ?_⟩
      · conv_lhs => rw [← List.takeWhile_append_dropWhile (fun c => c != '=') s]
        rw [hdrop]
      · intro hnil
        rw [hnil] at hni
        exact hni rfl
      · intro hmem
        have := List.mem_takeWhile_imp hmem
        simp at this

theorem matchNameValue_of_shape {n : Str} (v : Str)
    (hn : n ≠ []) (hnq : '=' ∉ n) :
    matchNameValue (n ++ '=' :: v) = some (n, v) := by
  have hall : ∀ c ∈ n, (c != '=') = true := fun c hc =>
    bne_iff_ne.mpr (fun he => hnq (he ▸ hc))
  have hfalse : (('=' : Char) != '=') = false := by simp
  have hni : n.isEmpty = false := by
    cases n with
    | nil => exact absurd rfl hn
    | cons a as => rfl
  simp only [matchNameValue, takeWhile_append_of_all v hall hfalse,
    dropWhile_append_of_all v hall hfalse, hni]
  rfl

theorem exists_first_occur {c : Char} {s : Str} (h : c ∈ s) :
    ∃ a b, s = a ++ c :: b ∧ c ∉ a := by
  induction s with
  | nil => cases h
  | cons x xs ih =>
    by_cases hx : x = c
    · exact ⟨[], xs, by rw [hx]; rfl, List.not_mem_nil c⟩
    · have h' : c ∈ xs := by
        rcases List.mem_cons.mp h with he | h'
        · exact absurd he.symm hx
        · exact h'
      obtain ⟨a, b, rfl, ha⟩ := ih h'
      refine ⟨x :: a, b, rfl, ?_⟩
      intro hm
      rcases List.mem_cons.mp hm with he | hm
      · exact hx he.symm
      · exact ha hm

theorem splitOnChar_head_shape (c : Char) (s : Str) :
    ∃ s0 rest, splitOnChar c s = s0 :: rest ∧
      (∃ t, s0 ++ t = s ∧ (t = [] ∨ ∃ b, t = c :: b)) ∧ c ∉ s0 := by
  by_cases hc : c ∈ s
  · obtain ⟨a, b, rfl, ha⟩ := exists_first_occur hc
    exact ⟨a, splitOnChar c b, splitOnChar_append_cons b ha,
      ⟨c :: b, rfl, Or.inr ⟨b, rfl⟩⟩, ha⟩
  · exact ⟨s, [], splitOnChar_of_not_mem hc,
      ⟨[], List.append_nil s, Or.inl rfl⟩, hc⟩

theorem dropWhile_append_of_head_false {p : Char → Bool} {x y : Str}
    (hy : ∀ c, y.head? = some c → p c = false) (hyne : y ≠ []) :
    (x ++ y).dropWhile p = x.dropWhile p ++ y := by
  induction x with
  | nil =>
    cases y with
    | nil => exact absurd rfl hyne
    | cons b bs =>
      simp only [List.nil_append, List.dropWhile_cons, hy b rfl]
      rfl
  | cons a x' ih =>
    by_cases ha : p a = true
    · simpa only [List.cons_append, List.dropWhile_cons, ha, if_pos] using ih
    · simp only [List.cons_append, List.dropWhile_cons, ha, if_neg,
        Bool.not_eq_true]

theorem trimRight_append_left {a b : Str} (ha : a ≠ [])
    (hlast : ∀ c, a.getLast? = some c → isWs c = false) :
    trimRight (a ++ b) = a ++ trimRight b := by
  have hrev : a.reverse ≠ [] := by
    intro h
    exact ha (by rw [← List.reverse_reverse a, h]; rfl)
  have hhead : ∀ c, a.reverse.head? = some c → isWs c = false := by
    intro c hc
    exact hlast c (by rw [← List.head?_reverse]; exact hc)
  rw [trimRight, List.reverse_append,
    dropWhile_append_of_head_false hhead hrev, List.reverse_append,
    List.reverse_reverse]
  rfl

/-- The cookie name parsed back from any string of the form
`name ++ "=" ++ w` is `name`, whenever `name` is nonempty, contains no
`=` or `;`, and does not start with whitespace. -/
theorem cookieNameOf_name_eq {n w : Str} (hn : n ≠ []) (hnq : '=' ∉ n)
    (hnsemi : ';' ∉ n)
    (hh : ∀ c, n.head? = some c → isWs c = false) :
    ∃ v rest, parseCookieLine (n ++ '=' :: w) = some (n, v, rest) := by
  obtain ⟨s0, rest, hsp, ⟨t, hst, hto⟩, hs0⟩ :=
    splitOnChar_head_shape ';' (n ++ '=' :: w)
  have hshape : ∃ w0, s0 = n ++ '=' :: w0 := by
    have hst' : s0 ++ t = (n ++ ['=']) ++ w := by
      rw [hst, List.append_assoc]
      rfl
    rcases List.append_eq_append_iff.mp hst' with ⟨u, hu, htu⟩ | ⟨u, hu, _⟩
    · cases u with
      | nil =>
        refine ⟨[], ?_⟩
        rw [List.append_nil] at hu
        rw [← hu]
      | cons uc ucs =>
        exfalso
        have huct : uc = ';' := by
          rcases hto with rfl | ⟨b, hb⟩
          · exact absurd htu.symm (List.cons_ne_nil _ _)
          · rw [hb] at htu
            injection htu with h1 _
            exact h1.symm
        have hucmem : uc ∈ n ++ ['='] := by
          rw [hu]
          exact List.mem_append_right s0 (List.mem_cons_self uc ucs)
        rcases List.mem_append.mp hucmem with hm | hm
        · exact hnsemi (huct ▸ hm)
        · rw [huct] at hm
          simp at hm
    · refine ⟨u, ?_⟩
      rw [hu, List.append_assoc]
      rfl
  obtain ⟨w0, rfl⟩ := hshape
  have htl : trimLeft (n ++ '=' :: w0) = n ++ '=' :: w0 := by
    apply trimLeft_eq_self
    intro c hc
    apply hh c
    cases n with
    | nil => exact absurd rfl hn
    | cons a as =>
      simp only [List.cons_append, List.head?_cons, Option.some.injEq] at hc
      rw [List.head?_cons, hc]
  have hlast : ∀ c, (n ++ ['=']).getLast? = some c → isWs c = false := by
    intro c hc
    have hl : (n ++ ['='] : Str).getLast? = some '=' := by
      rw [List.getLast?_append]
      rfl
    rw [hl] at hc
    simp only [Option.some.injEq] at hc
    rw [← hc]
    decide
  have htr : trimRight (n ++ '=' :: w0) = n ++ '=' :: trimRight w0 := by
    have h1 : (n ++ '=' :: w0 : Str) = (n ++ ['=']) ++ w0 := by
      rw [List.append_assoc]
      rfl
    rw [h1, trimRight_append_left (by simp) hlast, List.append_assoc]
    rfl
  have htrim : trim (n ++ '=' :: w0) = n ++ '=' :: trimRight w0 := by
    rw [trim, htl, htr]
  refine ⟨trimRight w0, rest.map trim, ?_⟩
  unfold parseCookieLine
  rw [if_neg (by cases n <;> simp), hsp]
  simp only [List.map_cons, htrim,
    matchNameValue_of_shape (trimRight w0) hn hnq]

theorem parseCookieLine_props {s n v : Str} {attrs : List Str}
    (h : parseCookieLine s = some (n, v, attrs)) :
    n ≠ [] ∧ '=' ∉ n ∧ ';' ∉ n ∧
      (∀ c, n.head? = some c → isWs c = false) := by
  unfold parseCookieLine at h
  by_cases hse : s.isEmpty = true
  · rw [if_pos hse] at h; simp at h
  · rw [if_neg hse] at h
    cases hsplit : splitOnChar ';' s with
    | nil => exact absurd hsplit (splitOnChar_ne_nil ';' s)
    | cons a as =>
      rw [hsplit] at h
      simp only [List.map_cons] at h
      cases hm : matchNameValue (trim a) with
      | none =>
        rw [hm] at h
        replace h : (none : Option (Str × Str × List Str)) = some (n, v, attrs) := h
        simp at h
      | some nv =>
        obtain ⟨n0, v0⟩ := nv
        rw [hm] at h
        replace h : some (n0, v0, as.map trim) = some (n, v, attrs) := h
        simp only [Option.some.injEq, Prod.mk.injEq] at h
        obtain ⟨rfl, rfl, rfl⟩ := h
        obtain ⟨heq, hn, hnq⟩ := matchNameValue_eq_some hm
        have hsa : ';' ∉ a :=
          not_mem_of_mem_splitOnChar (hsplit ▸ List.mem_cons_self a as)
        refine ⟨hn, hnq, ?_, ?_⟩
        · intro hmem
          apply hsa
          apply mem_trim
          rw [heq]
          exact List.mem_append_left _ hmem
        · intro c hc
          apply trim_head_not_ws (s := a)
          rw [heq]
          cases hn0 : n0 with
          | nil => exact absurd hn0 hn
          | cons b bs =>
            rw [List.cons_append, List.head?_cons]
            rw [hn0, List.head?_cons] at hc
            exact hc

theorem takeWhile_all {p : Char → Bool} {l : Str}
    (h : ∀ c ∈ l, p c = true) : l.takeWhile p = l := by
  induction l with
  | nil => rfl
  | cons a as ih =>
    rw [List.takeWhile_cons, if_pos (h a (List.mem_cons_self a as)),
      ih (fun c hc => h c (List.mem_cons_of_mem a hc))]

theorem regexTokenMatch_cons (pat : Str) (c : Char) (cs : Str) :
    regexTokenMatch pat (c :: cs) =
      if pat.isPrefixOf (c :: cs) then
        (if (((c :: cs).drop pat.length).takeWhile (fun d => d != ';')).isEmpty then
          regexTokenMatch pat cs
         else some (((c :: cs).drop pat.length).takeWhile (fun d => d != ';')))
      else regexTokenMatch pat cs := rfl

theorem regexTokenMatch_self_append {pat tok : Str} (hne : tok ≠ [])
    (hsemi : ∀ c ∈ tok, (c != ';') = true) :
    regexTokenMatch pat (pat ++ tok) = some tok := by
  have htw : tok.takeWhile (fun d => d != ';') = tok := takeWhile_all hsemi
  have hie : tok.isEmpty = false := by
    cases tok with
    | nil => exact absurd rfl hne
    | cons a as => rfl
  cases hcat : pat ++ tok with
  | nil =>
    rcases List.append_eq_nil.mp hcat with ⟨-, h2⟩
    exact absurd h2 hne
  | cons c cs =>
    rw [regexTokenMatch_cons, ← hcat,
      if_pos (isPrefixOf_self_append pat tok), List.drop_left, htw, hie]
    simp

theorem mem_dedupFirstAux {a : Str} :
    ∀ (seen l : List Str), a ∈ dedupFirstAux seen l ↔ a ∈ l ∧ a ∉ seen := by
  intro seen l
  induction l generalizing seen with
  | nil => simp [dedupFirstAux]
  | cons x xs ih =>
    by_cases hx : x ∈ seen
    · rw [dedupFirstAux, if_pos hx, ih]
      constructor
      · rintro ⟨h1, h2⟩
        exact ⟨List.mem_cons_of_mem x h1, h2⟩
      · rintro ⟨h1, h2⟩
        rcases List.mem_cons.mp h1 with rfl | h1
        · exact absurd hx h2
        · exact ⟨h1, h2⟩
    · rw [dedupFirstAux, if_neg hx]
      constructor
      · intro h
        rcases List.mem_cons.mp h with rfl | h
        · exact ⟨List.mem_cons_self a xs, hx⟩
        · obtain ⟨h1, h2⟩ := (ih (x :: seen)).mp h
          refine ⟨List.mem_cons_of_mem x h1, fun hc => h2 (List.mem_cons_of_mem x hc)⟩
      · rintro ⟨h1, h2⟩
        by_cases hax : a = x
        · rw [hax]
          exact List.mem_cons_self x _
        · rcases List.mem_cons.mp h1 with rfl | h1
          · exact absurd rfl hax
          · refine List.mem_cons_of_mem x ((ih (x :: seen)).mpr ⟨h1, ?_⟩)
            intro hc
            rcases List.mem_cons.mp hc with rfl | hc
            · exact hax rfl
            · exact h2 hc

theorem mem_dedupFirst {a : Str} {l : List Str} : a ∈ dedupFirst l ↔ a ∈ l := by
  rw [dedupFirst, mem_dedupFirstAux]
  simp

theorem cookieAttrLoop_dom_mem {d : Str} {l : List Str}
    (h : (cookieAttrLoop d l).2 = true) :
    dAttrOf d ∈ (cookieAttrLoop d l).1 := by
  induction l with
  | nil => simp [cookieAttrLoop] at h
  | cons a as ih =>
    by_cases h1 : (str "domain=").isPrefixOf (lower a) = true
    · simp only [cookieAttrLoop, h1, if_true]
      exact List.mem_cons_self _ _
    · by_cases h2 : ((str "secure").isPrefixOf (lower a) ||
          (str "samesite=").isPrefixOf (lower a)) = true
      · simp only [cookieAttrLoop, h1, h2, if_true, if_false] at h ⊢
        exact ih h
      · by_cases h3 : ((str "path=").isPrefixOf (lower a) ||
            (str "expires=").isPrefixOf (lower a) ||
            (str "max-age=").isPrefixOf (lower a) ||
            (str "httponly").isPrefixOf (lower a)) = true
        · simp only [cookieAttrLoop, h1, h2, h3, if_true, if_false] at h ⊢
          exact List.mem_cons_of_mem _ (ih h)
        · by_cases h4 : a.isEmpty = false
          · simp only [cookieAttrLoop, h1, h2, h3, h4, if_true, if_false] at h ⊢
            exact List.mem_cons_of_mem _ (ih h)
          · simp only [cookieAttrLoop, h1, h2, h3, h4, if_true, if_false] at h ⊢
            exact ih h

theorem cookieAttrLoop_domain_attr {d : Str} {l : List Str} :
    ∀ a ∈ (cookieAttrLoop d l).1,
      (str "domain=").isPrefixOf (lower a) = true → a = dAttrOf d := by
  induction l with
  | nil => simp [cookieAttrLoop]
  | cons a as ih =>
    intro x hx hdom
    by_cases h1 : (str "domain=").isPrefixOf (lower a) = true
    · simp only [cookieAttrLoop, h1, if_true] at hx
      rcases List.mem_cons.mp hx with rfl | hx
      · rfl
      · exact ih x hx hdom
    · by_cases h2 : ((str "secure").isPrefixOf (lower a) ||
          (str "samesite=").isPrefixOf (lower a)) = true
      · simp only [cookieAttrLoop, h1, h2, if_true, if_false] at hx
        exact ih x hx hdom
      · by_cases h3 : ((str "path=").isPrefixOf (lower a) ||
            (str "expires=").isPrefixOf (lower a) ||
            (str "max-age=").isPrefixOf (lower a) ||
            (str "httponly").isPrefixOf (lower a)) = true
        · simp only [cookieAttrLoop, h1, h2, h3, if_true, if_false] at hx
          rcases List.mem_cons.mp hx with rfl | hx
          · exact absurd hdom h1
          · exact ih x hx hdom
        · by_cases h4 : a.isEmpty = false
          · simp only [cookieAttrLoop, h1, h2, h3, h4, if_true, if_false] at hx
            rcases List.mem_cons.mp hx with rfl | hx
            · exact absurd hdom h1
            · exact ih x hx hdom
          · simp only [cookieAttrLoop, h1, h2, h3, h4, if_true, if_false] at hx
            exact ih x hx hdom

theorem modifyCookieParts_eq {s d : Str} {ps : List Str}
    (h : modifyCookieParts s d = some ps) :
    ∃ n v attrs, parseCookieLine s = some (n, v, attrs) ∧ n ≠ AUTH1 ∧
      ps = (n ++ '=' :: v) ::
        dedupFirstAux [n ++ '=' :: v]
          ((cookieAttrLoop d attrs).1 ++
            (if (cookieAttrLoop d attrs).2 = true then [] else [dAttrOf d]) ++
            [str "Secure", str "SameSite=None"]) := by
  unfold modifyCookieParts at h
  cases hp : parseCookieLine s with
  | none =>
    rw [hp] at h
    replace h : (none : Option (List Str)) = some ps := h
    simp at h
  | some t =>
    obtain ⟨n, v, attrs⟩ := t
    rw [hp] at h
    by_cases hn : n = AUTH1
    · replace h :
        (if n = AUTH1 then none
         else some (dedupFirst ((n ++ '=' :: v) ::
           ((cookieAttrLoop d attrs).1 ++
            (if (cookieAttrLoop d attrs).2 = true then [] else [dAttrOf d]) ++
            [str "Secure", str "SameSite=None"])))) = some ps := h
      rw [if_pos hn] at h
      simp at h
    · replace h :
        (if n = AUTH1 then none
         else some (dedupFirst ((n ++ '=' :: v) ::
           ((cookieAttrLoop d attrs).1 ++
            (if (cookieAttrLoop d attrs).2 = true then [] else [dAttrOf d]) ++
            [str "Secure", str "SameSite=None"])))) = some ps := h
      rw [if_neg hn] at h
      simp only [Option.some.injEq] at h
      refine ⟨n, v, attrs, rfl, hn, ?_⟩
      rw [← h, dedupFirst, dedupFirstAux,
        if_neg (List.not_mem_nil (n ++ '=' :: v))]

theorem lower_append (a b : Str) : lower (a ++ b) = lower a ++ lower b :=
  List.map_append _ a b

theorem dAttrOf_is_domain_attr (d : Str) :
    (str "domain=").isPrefixOf (lower (dAttrOf d)) = true := by
  rw [dAttrOf, lower_append]
  have hl : lower (str "Domain=") = str "domain=" := by decide
  rw [hl]
  exact isPrefixOf_self_append _ _

/-! ## The claims -/

/-- C10: For every pathname and every list of configured prefixes,
`extractPrefixAndRest` (both the sorting variant of `main.ts` 641-649 and
the plain variant of `part_000` 98-105 / `main.ts` 2168-2175) returns a
non-null pair iff some listed entry is a string-prefix of the pathname;
and whenever it returns `(p, r)`, `p` is an element of the list and
`p ++ r` reconstructs the pathname exactly. -/
theorem C10_extract_correct (pathname : Str) (keys : List Str) :
    ((extractPrefixAndRest pathname keys).isSome = true ↔
      ∃ p, p ∈ keys ∧ p.isPrefixOf pathname = true) ∧
    (∀ p r, extractPrefixAndRest pathname keys = some (p, r) →
      p ∈ keys ∧ p ++ r = pathname) ∧
    ((extractPrefixAndRestNoSort pathname keys).isSome = true ↔
      ∃ p, p ∈ keys ∧ p.isPrefixOf pathname = true) ∧
    (∀ p r, extractPrefixAndRestNoSort pathname keys = some (p, r) →
      p ∈ keys ∧ p ++ r = pathname) := by
  refine ⟨extract_isSome_iff pathname keys, ?_,
    extractNoSort_isSome_iff pathname keys, ?_⟩
  · intro p r h
    obtain ⟨hm, _, hc, _⟩ := extract_eq_some_facts h
    exact ⟨hm, hc⟩
  · intro p r h
    obtain ⟨hm, hp, hr⟩ := extractNoSort_eq_some h
    refine ⟨hm, ?_⟩
    rw [hr]
    exact append_drop_of_isPrefixOf hp

/-- Witness for C10 at the api-proxy table and path `/openai/v1/models`. -/
theorem C10_extract_correct_w :
    (str "/openai") ∈ apiKeys2 ∧
      str "/openai" ++ str "/v1/models" = str "/openai/v1/models" :=
  (C10_extract_correct (str "/openai/v1/models") apiKeys2).2.1
    (str "/openai") (str "/v1/models") (by decide)

/-- C1 counterexample: the non-sorting `extractPrefixAndRest`
(`src/unnamed/part_000` lines 98-105, `main.ts` lines 2168-2175) resolves
`/openai/v1/models` against the table `[/openai, /openai/v1]` to the
SHORTER prefix `/openai`, although `/openai` is a strict string-prefix of
the also-matching `/openai/v1` — the claim's longest-prefix-wins
invariant fails for this variant on such a table. -/
theorem C1_counterexample :
    extractPrefixAndRestNoSort (str "/openai/v1/models")
        [str "/openai", str "/openai/v1"] =
      some (str "/openai", str "/v1/models") ∧
    (str "/openai").isPrefixOf (str "/openai/v1") = true ∧
    str "/openai" ≠ str "/openai/v1" ∧
    (str "/openai/v1").isPrefixOf (str "/openai/v1/models") = true := by
  decide

/-- C1 (amended): for the sorting `extractPrefixAndRest` of
`main.ts` 641-649 the longest-matching-prefix invariant holds on every
route table: if `P1, P2` are configured, `P1` is a strict string-prefix
of `P2` and `P2` matches the path, resolution returns a pair whose prefix
is at least as long as `P2` and is never `P1`.  The non-sorting variants
return the first listed match instead; their actual configured tables
(`part_000` lines 5-21, `main.ts` lines 2041-2058) contain no
strict-prefix pair, so no such shadowing arises there. -/
theorem C1_amended :
    (∀ (keys : List Str) (path P1 P2 : Str),
      P1 ∈ keys → P2 ∈ keys →
      P1.isPrefixOf P2 = true → P1 ≠ P2 →
      P2.isPrefixOf path = true →
      ∃ p r, extractPrefixAndRest path keys = some (p, r) ∧
        P2.length ≤ p.length ∧ p ≠ P1) ∧
    (∀ a ∈ part000Keys, ∀ b ∈ part000Keys, a.isPrefixOf b = true → a = b) ∧
    (∀ a ∈ doc4Keys, ∀ b ∈ doc4Keys, a.isPrefixOf b = true → a = b) := by
  refine ⟨?_, by decide, by decide⟩
  intro keys path P1 P2 h1 h2 hpp hne hmatch
  have hsome : (extractPrefixAndRest path keys).isSome = true :=
    (extract_isSome_iff path keys).mpr ⟨P2, h2, hmatch⟩
  obtain ⟨⟨p, r⟩, hpr⟩ := Option.isSome_iff_exists.mp hsome
  obtain ⟨hm, hp, hc, hmax⟩ := extract_eq_some_facts hpr
  have hlen : P2.length ≤ p.length := hmax P2 h2 hmatch
  have hlt : P1.length < P2.length := length_lt_of_strict_pfx hpp hne
  refine ⟨p, r, hpr, hlen, ?_⟩
  intro he
  rw [he] at hlen
  exact absurd hlt (Nat.not_lt.mpr hlen)

/-- Witness for C1 (amended) at the table `[/openai, /openai/v1]`. -/
theorem C1_amended_w :
    ∃ p r, extractPrefixAndRest (str "/openai/v1/models")
        [str "/openai", str "/openai/v1"] = some (p, r) ∧
      (str "/openai/v1").length ≤ p.length ∧ p ≠ str "/openai" :=
  C1_amended.1 [str "/openai", str "/openai/v1"] (str "/openai/v1/models")
    (str "/openai") (str "/openai/v1") (by decide) (by decide) (by decide)
    (by decide) (by decide)

/-- C2: when a password is configured and the request's session cookie is
missing or does not validate, every request to a gated (prefix-matched)
path receives the 401 login form and the upstream `fetch` is never
invoked.  First conjunct: the api-proxy `main` (`main.ts` 566-584 with
`isAuthenticated`, 396-411).  Second conjunct: the z-library `handler`
(`main.ts` 40-52), where every path other than `/status` and the
`POST /auth-login` submission is gated. -/
theorem C2_unauthenticated_gate :
    (∀ (hash : Str → Str) (cfg : Config2) (req : Req2) (pw p r : Str),
      cfg.password = some pw →
      isAuthenticated hash cfg.password req.cookieHeader = false →
      extractPrefixAndRest req.pathname apiKeys2 = some (p, r) →
      mainRoute hash cfg req = Act.loginPage ∧
        (generateLoginPage []).status = 401 ∧
        ∀ f, mainRoute hash cfg req ≠ Act.forward f) ∧
    (∀ (cfg : Config1) (req : Req1) (pw : Str),
      cfg.password = some pw → pw ≠ [] →
      req.pathname ≠ str "/status" →
      isValidAuthCookie (getCookies req.cookieHeader) = false →
      ¬(req.method = str "POST" ∧ req.pathname = str "/auth-login") →
      handlerRoute cfg req = Act1.loginPage (req.pathname ++ req.search) ∧
        (handleLoginPage false).status = 401 ∧
        ∀ h m b, handlerRoute cfg req ≠ Act1.forward h m b) := by
  constructor
  · intro hash cfg req pw p r hpwd hauth hex
    have hpe : ¬(pwEnabled cfg.password = false) := by
      intro hcon
      rw [isAuthenticated.eq_def, if_pos hcon] at hauth
      cases hauth
    obtain ⟨hm, hp, _, _⟩ := extract_eq_some_facts hex
    have hlg : req.pathname ≠ str "/login" :=
      (pathname_not_special_api hm hp).2.2.2.2
    have hroute : mainRoute hash cfg req = Act.loginPage := by
      rw [mainRoute, if_neg hpe,
        if_neg (by rintro ⟨hl, -⟩; exact hlg hl),
        if_neg (by simp [hauth])]
    refine ⟨hroute, rfl, ?_⟩
    intro f hf
    rw [hroute] at hf
    cases hf
  · intro cfg req pw hpwd hpw hst hcv hnl
    have hpe : pwEnabled cfg.password = true := by
      rw [hpwd]
      cases pw with
      | nil => exact absurd rfl hpw
      | cons a as => rfl
    have hroute : handlerRoute cfg req =
        Act1.loginPage (req.pathname ++ req.search) := by
      simp only [handlerRoute]
      rw [if_neg hst, if_pos hpe, if_neg (by simp [hcv]), if_neg hnl]
    refine ⟨hroute, rfl, ?_⟩
    intro h m b hf
    rw [hroute] at hf
    cases hf

/-- Witness for C2: a GET to `/openai/v1/models` with no cookie on the
api-proxy, and a GET to `/book/1` with no cookie on the z-library proxy. -/
theorem C2_unauthenticated_gate_w :
    (mainRoute (fun s => s) ⟨some (str "pw"), str "proxy.example"⟩
        ⟨str "GET", str "/openai/v1/models", [], none, [], none, []⟩ =
        Act.loginPage ∧
      (generateLoginPage []).status = 401 ∧
      ∀ f, mainRoute (fun s => s) ⟨some (str "pw"), str "proxy.example"⟩
        ⟨str "GET", str "/openai/v1/models", [], none, [], none, []⟩ ≠
        Act.forward f) ∧
    (handlerRoute ⟨some (str "pw"), str "proxy.example"⟩
        ⟨str "GET", str "/book/1", [], none, [], none⟩ =
        Act1.loginPage (str "/book/1" ++ []) ∧
      (handleLoginPage false).status = 401 ∧
      ∀ h m b, handlerRoute ⟨some (str "pw"), str "proxy.example"⟩
        ⟨str "GET", str "/book/1", [], none, [], none⟩ ≠
        Act1.forward h m b) :=
  ⟨C2_unauthenticated_gate.1 (fun s => s) ⟨some (str "pw"), str "proxy.example"⟩
      ⟨str "GET", str "/openai/v1/models", [], none, [], none, []⟩
      (str "pw") (str "/openai") (str "/v1/models") rfl (by decide) (by decide),
   C2_unauthenticated_gate.2 ⟨some (str "pw"), str "proxy.example"⟩
      ⟨str "GET", str "/book/1", [], none, [], none⟩
      (str "pw") rfl (by decide) (by decide) (by decide) (by decide)⟩

/-- C4 counterexample: `src/unnamed/part_000` (line 65) forwards
`apiMapping[prefix] + rest` WITHOUT the query string: a GET to
`/openai/v1/models?x=1` is forwarded to
`https://api.openai.com/v1/models`, not to
`https://api.openai.com/v1/models?x=1` as the claim requires. -/
theorem C4_counterexample :
    part000Route ⟨str "GET", str "/openai/v1/models", str "?x=1",
        none, [], none, []⟩ =
      Act.forward ⟨str "https://api.openai.com/v1/models", str "GET", [], none⟩ ∧
    str "https://api.openai.com/v1/models" ≠
      str "https://api.openai.com/v1/models?x=1" := by
  decide

/-- C4 (amended): for every authenticated request whose path matches a
configured prefix, the api-proxy `main` (`main.ts` 602-623) forwards to
`apiMapping[prefix] ++ rest ++ url.search` with the original method and
body; the `part_000` variant (lines 59-80) forwards to
`apiMapping[prefix] ++ rest` — dropping the query string — also with the
original method and body. -/
theorem C4_amended :
    (∀ (hash : Str → Str) (cfg : Config2) (req : Req2) (p r : Str),
      (cfg.password = none ∨
        isAuthenticated hash cfg.password req.cookieHeader = true) →
      extractPrefixAndRest req.pathname apiKeys2 = some (p, r) →
      p ++ r = req.pathname ∧
      mainRoute hash cfg req = Act.forward
        ⟨lookupTable apiMapping2 p ++ r ++ req.search, req.method,
         filterAllowedHeaders req.headers, req.body⟩) ∧
    (∀ (req : Req2) (p r : Str),
      extractPrefixAndRestNoSort req.pathname part000Keys = some (p, r) →
      p ++ r = req.pathname ∧
      part000Route req = Act.forward
        ⟨lookupTable part000Map p ++ r, req.method,
         filterAllowedHeaders req.headers, req.body⟩) := by
  constructor
  · intro hash cfg req p r hauth hex
    obtain ⟨hm, hp, hc, _⟩ := extract_eq_some_facts hex
    have hfor := routeAfterAuth_eq_forward hex
    refine ⟨hc, ?_⟩
    rcases hauth with hnone | hyes
    · rw [mainRoute, if_pos (by rw [hnone]; rfl)]
      exact hfor
    · by_cases hpe : pwEnabled cfg.password = false
      · rw [mainRoute, if_pos hpe]
        exact hfor
      · have hlg : req.pathname ≠ str "/login" :=
          (pathname_not_special_api hm hp).2.2.2.2
        rw [mainRoute, if_neg hpe,
          if_neg (by rintro ⟨hl, -⟩; exact hlg hl), if_pos hyes]
        exact hfor
  · intro req p r hex
    obtain ⟨hm, hp, hr⟩ := extractNoSort_eq_some hex
    refine ⟨?_, part000Route_eq_forward hex⟩
    rw [hr]
    exact append_drop_of_isPrefixOf hp

/-- Witness for C4 (amended) at `GET /openai/v1/models?x=1`. -/
theorem C4_amended_w :
    str "/openai" ++ str "/v1/models" = str "/openai/v1/models" ∧
    mainRoute (fun s => s) ⟨none, str "proxy.example"⟩
        ⟨str "GET", str "/openai/v1/models", str "?x=1", none, [],
          some (str "BODY"), []⟩ =
      Act.forward ⟨lookupTable apiMapping2 (str "/openai") ++
          str "/v1/models" ++ str "?x=1",
        str "GET", filterAllowedHeaders [], some (str "BODY")⟩ :=
  C4_amended.1 (fun s => s) ⟨none, str "proxy.example"⟩
    ⟨str "GET", str "/openai/v1/models", str "?x=1", none, [],
      some (str "BODY"), []⟩
    (str "/openai") (str "/v1/models") (Or.inl rfl) (by decide)

/-- C6 counterexample: the api-proxy `main` (`main.ts` 635-638) maps EVERY
`fetch` exception — including a connection failure
(`TypeError: fetch failed`) — to a 500, not to the 502 the claim
requires for connection failures.  The `part_000` catch (lines 91-94)
behaves the same. -/
theorem C6_counterexample :
    mainRoute (fun s => s) ⟨none, str "proxy.example"⟩
        ⟨str "GET", str "/openai/v1/models", [], none, [], none, []⟩ =
      Act.forward ⟨str "https://api.openai.com/v1/models", str "GET", [], none⟩ ∧
    isFetchFailedError ⟨true, str "TypeError: fetch failed"⟩ = true ∧
    forwardOutcome apiMainCatch
        (.error ⟨true, str "TypeError: fetch failed"⟩) =
      (500, str "Internal Server Error: Proxy failed.") ∧
    (500 : Nat) ≠ 502 := by
  decide

/-- C6 (amended): for every request that reaches the forwarding step, the
z-library `handler` (`main.ts` 85-91) maps a connection failure
(`TypeError` whose message includes `fetch failed`) to a 502 whose body
mentions only the target host, and any other exception to a 500 with a
fixed body; the api-proxy `main` (635-638) and `part_000` (91-94) map
every exception to a 500 with a fixed body.  No branch's body carries
exception detail. -/
theorem C6_amended :
    (∀ (cfg : Config1) (req : Req1) (h m : Str) (b : Option Str) (e : JsError),
      handlerRoute cfg req = Act1.forward h m b →
      (isFetchFailedError e = true →
        forwardOutcome (handlerCatch h) (.error e) = (502, connFailMsg h)) ∧
      (isFetchFailedError e = false →
        forwardOutcome (handlerCatch h) (.error e) =
          (500, str "Proxy error occurred. Check logs."))) ∧
    (∀ (hash : Str → Str) (cfg : Config2) (req : Req2) (f : Forwarded)
      (e : JsError),
      mainRoute hash cfg req = Act.forward f →
      forwardOutcome apiMainCatch (.error e) =
        (500, str "Internal Server Error: Proxy failed.")) ∧
    (∀ (req : Req2) (f : Forwarded) (e : JsError),
      part000Route req = Act.forward f →
      forwardOutcome part000Catch (.error e) =
        (500, str "Internal Server Error")) := by
  refine ⟨?_, ?_, ?_⟩
  · intro cfg req h m b e _
    constructor
    · intro h1
      show handlerCatch h e = (502, connFailMsg h)
      rw [handlerCatch, if_pos h1]
    · intro h1
      show handlerCatch h e = (500, str "Proxy error occurred. Check logs.")
      rw [handlerCatch, if_neg (by simp [h1])]
  · intro hash cfg req f e _
    rfl
  · intro req f e _
    rfl

/-- Witness for C6 (amended) at concrete requests that reach forwarding
and concrete exceptions. -/
theorem C6_amended_w :
    forwardOutcome (handlerCatch ZLIB)
        (.error ⟨true, str "TypeError: fetch failed"⟩) =
      (502, connFailMsg ZLIB) ∧
    forwardOutcome (handlerCatch ZLIB) (.error ⟨false, str "boom"⟩) =
      (500, str "Proxy error occurred. Check logs.") ∧
    forwardOutcome apiMainCatch (.error ⟨true, str "TypeError: fetch failed"⟩) =
      (500, str "Internal Server Error: Proxy failed.") ∧
    forwardOutcome part000Catch (.error ⟨true, str "TypeError: fetch failed"⟩) =
      (500, str "Internal Server Error") :=
  ⟨(C6_amended.1 ⟨none, str "proxy.example"⟩
      ⟨str "GET", str "/book/1", [], none, [], none⟩ ZLIB (str "GET") none
      ⟨true, str "TypeError: fetch failed"⟩ (by decide)).1 (by decide),
   (C6_amended.1 ⟨none, str "proxy.example"⟩
      ⟨str "GET", str "/book/1", [], none, [], none⟩ ZLIB (str "GET") none
      ⟨false, str "boom"⟩ (by decide)).2 (by decide),
   C6_amended.2.1 (fun s => s) ⟨none, str "proxy.example"⟩
      ⟨str "GET", str "/openai/v1/models", [], none, [], none, []⟩
      ⟨str "https://api.openai.com/v1/models", str "GET", [], none⟩
      ⟨true, str "TypeError: fetch failed"⟩ (by decide),
   C6_amended.2.2 ⟨str "GET", str "/openai/v1/models", [], none, [], none, []⟩
      ⟨str "https://api.openai.com/v1/models", str "GET", [], none⟩
      ⟨true, str "TypeError: fetch failed"⟩ (by decide)⟩

/-- C5 counterexample: the api-proxy `handleLogin` (`main.ts` 535-563)
always redirects to `/` on success — the submitted `redirect_to` value
(`/dash` here) is ignored (its login form has no `redirect_to` field at
all), refuting "Location header equal to the submitted redirect_to
value" for this cited implementation. -/
theorem C5_counterexample :
    handleLogin (fun s => s) (some (str "secret123"))
        [(str "password", str "secret123"), (str "redirect_to", str "/dash")] =
      ⟨302, some (str "/"), some (authCookieValue2 (str "secret123")),
        false, false⟩ ∧
    some (str "/") ≠ some (str "/dash") := by
  decide

/-- C5 (amended): with a (truthy) password configured, the z-library
`handleLoginSubmission` (`main.ts` 145-184) answers a correct password
with a 302 whose `Location` is the submitted `redirect_to` (default `/`)
and the session cookie, and a wrong or missing password with the 401
login form showing the error indicator; the api-proxy `handleLogin`
(535-563) behaves the same except that its `Location` is always `/`. -/
theorem C5_amended :
    (∀ (cfg : Config1) (form : List (Str × Str)) (pw : Str),
      cfg.password = some pw → pw ≠ [] →
      (lookupForm form (str "password") = some pw →
        handleLoginSubmission cfg form =
          ⟨302, some (redirectToOf form), some (authCookieRec cfg.domain),
            false, false⟩) ∧
      (lookupForm form (str "password") ≠ some pw →
        handleLoginSubmission cfg form = ⟨401, none, none, true, true⟩)) ∧
    (∀ (hash : Str → Str) (form : List (Str × Str)) (pw : Str),
      pw ≠ [] →
      (lookupForm form (str "password") = some pw →
        handleLogin hash (some pw) form =
          ⟨302, some (str "/"), some (authCookieValue2 (hash pw)),
            false, false⟩) ∧
      (lookupForm form (str "password") ≠ some pw →
        handleLogin hash (some pw) form = ⟨401, none, none, true, true⟩)) := by
  constructor
  · intro cfg form pw hpwd hpw
    have hpe : ¬(pwEnabled cfg.password = false) := by
      rw [hpwd]
      cases pw with
      | nil => exact absurd rfl hpw
      | cons a as => simp [pwEnabled]
    constructor
    · intro hform
      rw [handleLoginSubmission.eq_def, if_neg hpe, hpwd]
      simp only [if_pos hform]
    · intro hform
      rw [handleLoginSubmission.eq_def, if_neg hpe, hpwd]
      simp only [if_neg hform]
      rfl
  · intro hash form pw hpw
    have hpe : ¬(pwEnabled (some pw) = false) := by
      cases pw with
      | nil => exact absurd rfl hpw
      | cons a as => simp [pwEnabled]
    constructor
    · intro hform
      rw [handleLogin.eq_def, if_neg hpe]
      simp only [if_pos hform]
    · intro hform
      rw [handleLogin.eq_def, if_neg hpe]
      simp only [if_neg hform]
      rfl

/-- Witness for C5 (amended): a correct and a wrong submission against
each login handler. -/
theorem C5_amended_w :
    (handleLoginSubmission ⟨some (str "secret123"), str "proxy.example"⟩
        [(str "password", str "secret123"), (str "redirect_to", str "/dash")] =
      ⟨302, some (redirectToOf
          [(str "password", str "secret123"), (str "redirect_to", str "/dash")]),
        some (authCookieRec (str "proxy.example")), false, false⟩) ∧
    (handleLoginSubmission ⟨some (str "secret123"), str "proxy.example"⟩
        [(str "password", str "wrong")] = ⟨401, none, none, true, true⟩) ∧
    (handleLogin (fun s => s) (some (str "secret123"))
        [(str "password", str "wrong")] = ⟨401, none, none, true, true⟩) :=
  ⟨(C5_amended.1 ⟨some (str "secret123"), str "proxy.example"⟩
      [(str "password", str "secret123"), (str "redirect_to", str "/dash")]
      (str "secret123") rfl (by decide)).1 (by decide),
   (C5_amended.1 ⟨some (str "secret123"), str "proxy.example"⟩
      [(str "password", str "wrong")] (str "secret123") rfl (by decide)).2
      (by decide),
   (C5_amended.2 (fun s => s) [(str "password", str "wrong")]
      (str "secret123") (by decide)).2 (by decide)⟩

theorem includesStr_append_right (x needle : Str) :
    includesStr needle (x ++ needle) = true := by
  induction x with
  | nil =>
    cases needle with
    | nil => rfl
    | cons c cs =>
      simp only [List.nil_append, includesStr]
      rw [Bool.or_eq_true]
      exact Or.inl ((isPrefixOf_iff_exists _ _).mpr ⟨[], List.append_nil _⟩)
  | cons a x' ih =>
    simp only [List.cons_append, includesStr]
    rw [Bool.or_eq_true]
    exact Or.inr ih

/-- C3 counterexample: `isAuthenticated` (`main.ts` 396-411) consults only
the `Cookie` header and the configured password — it has no notion of
time.  After `handleLogin` issues the session cookie (whose `Max-Age` of
86400 seconds is a client-side attribute), replaying the same cookie
value is accepted at ANY later moment, so "replaying the same cookie
value after the configured max-age has elapsed is rejected" is false:
the server accepts it unconditionally.  (`generateAuthToken` is SHA-256;
it is instantiated here with the identity function, which is sound
because `isAuthenticated` only compares the replayed token with
`generateAuthToken(password)` for equality.) -/
theorem C3_counterexample :
    handleLogin (fun s => s) (some (str "secret123"))
        [(str "password", str "secret123")] =
      ⟨302, some (str "/"), some (authCookieValue2 (str "secret123")),
        false, false⟩ ∧
    includesStr (str "Max-Age=86400") (authCookieValue2 (str "secret123")) =
      true ∧
    isAuthenticated (fun s => s) (some (str "secret123"))
        (some (AUTH2 ++ str "=" ++ str "secret123")) = true := by
  decide

/-- C3 (amended): logging in with the correct password yields a 302
carrying the session cookie `api_proxy_auth_token=generateAuthToken(pw)`
with `Max-Age=86400`; replaying that cookie value on a subsequent gated
request is accepted as authenticated.  The max-age is enforced only by
the client (a cookie attribute): the server's `isAuthenticated` is
time-independent and accepts the same replayed value after the max-age
has elapsed as well. -/
theorem C3_amended :
    (∀ (hash : Str → Str) (pw : Str) (form : List (Str × Str)),
      pw ≠ [] →
      lookupForm form (str "password") = some pw →
      handleLogin hash (some pw) form =
        ⟨302, some (str "/"), some (authCookieValue2 (hash pw)),
          false, false⟩ ∧
      includesStr (str "Max-Age=86400") (authCookieValue2 (hash pw)) = true) ∧
    (∀ (hash : Str → Str) (pw : Str),
      pw ≠ [] → hash pw ≠ [] → (∀ c ∈ hash pw, (c != ';') = true) →
      isAuthenticated hash (some pw) (some (AUTH2 ++ str "=" ++ hash pw)) =
        true) := by
  constructor
  · intro hash pw form hpw hform
    have hpe : ¬(pwEnabled (some pw) = false) := by
      cases pw with
      | nil => exact absurd rfl hpw
      | cons a as => simp [pwEnabled]
    constructor
    · rw [handleLogin.eq_def, if_neg hpe]
      simp only [if_pos hform]
    · have hsplit2 :
          str "; Path=/; HttpOnly; Secure; SameSite=Lax; Max-Age=86400" =
            str "; Path=/; HttpOnly; Secure; SameSite=Lax; " ++
              str "Max-Age=86400" := by decide
      rw [authCookieValue2, hsplit2,
        show AUTH2 ++ str "=" ++ hash pw ++
            (str "; Path=/; HttpOnly; Secure; SameSite=Lax; " ++
              str "Max-Age=86400") =
          (AUTH2 ++ str "=" ++ hash pw ++
            str "; Path=/; HttpOnly; Secure; SameSite=Lax; ") ++
            str "Max-Age=86400" from by simp [List.append_assoc]]
      exact includesStr_append_right _ _
  · intro hash pw hpw htne htsemi
    have hpe : ¬(pwEnabled (some pw) = false) := by
      cases pw with
      | nil => exact absurd rfl hpw
      | cons a as => simp [pwEnabled]
    rw [isAuthenticated.eq_def, if_neg hpe]
    have hassoc : AUTH2 ++ str "=" ++ hash pw = (AUTH2 ++ str "=") ++ hash pw := by
      rw [List.append_assoc]
    rw [show (some (AUTH2 ++ str "=" ++ hash pw)).getD [] =
        (AUTH2 ++ str "=") ++ hash pw from by rw [hassoc]; rfl]
    rw [regexTokenMatch_self_append htne htsemi]
    simp

/-- Witness for C3 (amended) with a concrete password and hash. -/
theorem C3_amended_w :
    (handleLogin (fun s => s.reverse) (some (str "secret123"))
        [(str "password", str "secret123")] =
      ⟨302, some (str "/"),
        some (authCookieValue2 ((fun s => s.reverse) (str "secret123"))),
        false, false⟩ ∧
      includesStr (str "Max-Age=86400")
        (authCookieValue2 ((fun s => s.reverse) (str "secret123"))) = true) ∧
    isAuthenticated (fun s => s.reverse) (some (str "secret123"))
        (some (AUTH2 ++ str "=" ++ (fun s => s.reverse) (str "secret123"))) =
      true :=
  ⟨C3_amended.1 (fun s => s.reverse) (str "secret123")
      [(str "password", str "secret123")] (by decide) (by decide),
   C3_amended.2 (fun s => s.reverse) (str "secret123") (by decide) (by decide)
      (by decide)⟩

theorem isSuffixOf_append_self (sub base : Str) :
    base.isSuffixOf (sub ++ base) = true := by
  simp only [List.isSuffixOf, List.reverse_append]
  exact isPrefixOf_self_append _ _

/-- C9 counterexample: the rewrite criterion (`main.ts` line 194) is a raw
`hostname.endsWith(ZLIB_BASE_URL)` string-suffix test.  The host
`evilz-library.sk` is neither the configured base domain
`z-library.sk` nor one of its subdomains (no `.z-library.sk` suffix),
i.e. an unrelated foreign host — yet its `Location` is rewritten to
`/bar` instead of being left untouched as the claim requires. -/
theorem C9_counterexample :
    rewriteLocation (some ⟨str "evilz-library.sk", str "/bar", [], []⟩)
        (str "https://evilz-library.sk/bar") = str "/bar" ∧
    str "/bar" ≠ str "https://evilz-library.sk/bar" ∧
    str "evilz-library.sk" ≠ ZLIB ∧
    (str "." ++ ZLIB).isSuffixOf (str "evilz-library.sk") = false ∧
    (modifyRespHeaders
        (fun _ => some ⟨str "evilz-library.sk", str "/bar", [], []⟩)
        (fun s => s) (str "proxy.example") none
        ⟨some (str "https://evilz-library.sk/bar"), [], none⟩).location =
      some (str "/bar") := by
  decide

/-- C9 (amended): `modifyResponseHeaders` (`main.ts` 188-203) rewrites the
`Location` to `pathname + search + hash` exactly when the resolved
hostname ENDS WITH the configured base domain string — which covers the
base domain itself and all its subdomains (last conjunct), but also any
unrelated host whose name merely ends in that string; when resolution
throws, the original value is kept unchanged whether or not it starts
with `/`; a resolved host not ending in the base domain is left
untouched. -/
theorem C9_amended :
    (∀ (resolve : Str → Option URLParts) (enc : Str → Str) (d : Str)
      (lang : Option Str) (h : RespHeaders) (loc : Str) (u : URLParts),
      h.location = some loc →
      (resolve loc = some u → ZLIB.isSuffixOf u.hostname = true →
        (modifyRespHeaders resolve enc d lang h).location =
          some (u.pathname ++ u.search ++ u.hash)) ∧
      (resolve loc = some u → ZLIB.isSuffixOf u.hostname = false →
        (modifyRespHeaders resolve enc d lang h).location = some loc) ∧
      (resolve loc = none →
        (modifyRespHeaders resolve enc d lang h).location = some loc)) ∧
    (∀ sub : Str, ZLIB.isSuffixOf (sub ++ ZLIB) = true) := by
  constructor
  · intro resolve enc d lang h loc u hloc
    refine ⟨?_, ?_, ?_⟩
    · intro hres hsuf
      simp only [modifyRespHeaders, hloc, Option.map_some', rewriteLocation,
        hres, hsuf, if_true]
    · intro hres hsuf
      simp only [modifyRespHeaders, hloc, Option.map_some', rewriteLocation,
        hres, hsuf]
      simp
    · intro hres
      simp only [modifyRespHeaders, hloc, Option.map_some', rewriteLocation,
        hres]
      cases hsw : (str "/").isPrefixOf loc <;> simp [hsw]
  · intro sub
    exact isSuffixOf_append_self sub ZLIB

/-- Witness for C9 (amended): a redirect to a genuine subdomain of the
base, and the subdomain criterion itself. -/
theorem C9_amended_w :
    (modifyRespHeaders
        (fun _ => some ⟨str "zh.z-library.sk", str "/foo", str "?x=1", []⟩)
        (fun s => s) (str "proxy.example") none
        ⟨some (str "https://zh.z-library.sk/foo?x=1"), [], none⟩).location =
      some (str "/foo" ++ str "?x=1" ++ ([] : Str)) ∧
    ZLIB.isSuffixOf (str "zh." ++ ZLIB) = true :=
  ⟨(C9_amended.1
      (fun _ => some ⟨str "zh.z-library.sk", str "/foo", str "?x=1", []⟩)
      (fun s => s) (str "proxy.example") none
      ⟨some (str "https://zh.z-library.sk/foo?x=1"), [], none⟩
      (str "https://zh.z-library.sk/foo?x=1")
      ⟨str "zh.z-library.sk", str "/foo", str "?x=1", []⟩ rfl).1 rfl (by decide),
   C9_amended.2 (str "zh.")⟩

theorem joinSep_base_shape (n v : Str) (tail : List Str) :
    ∃ w, joinSep (str "; ") ((n ++ '=' :: v) :: tail) = n ++ '=' :: w := by
  cases tail with
  | nil => exact ⟨v, rfl⟩
  | cons z zs =>
    refine ⟨v ++ str "; " ++ joinSep (str "; ") (z :: zs), ?_⟩
    show (n ++ '=' :: v) ++ str "; " ++ joinSep (str "; ") (z :: zs) = _
    simp [List.append_assoc]

/-- C7: a `Set-Cookie` line from upstream whose cookie name equals the
proxy's own session-cookie name `proxy_auth_session` is dropped entirely
by `modifyCookieString` (`main.ts` 280), and no `Set-Cookie` header that
`modifyResponseHeaders` (`main.ts` 210-234) forwards to the client —
neither a rewritten upstream cookie nor the appended `siteLanguage`
cookie — parses to that name. -/
theorem C7_auth_cookie_drop :
    (∀ (line d : Str), cookieNameOf line = some AUTH1 →
      modifyCookieString line d = none) ∧
    (∀ (resolve : Str → Option URLParts) (enc : Str → Str) (d : Str)
      (lang : Option Str) (h : RespHeaders),
      ∀ out ∈ (modifyRespHeaders resolve enc d lang h).setCookies,
        cookieNameOf out ≠ some AUTH1) := by
  constructor
  · intro line d hname
    cases hp : parseCookieLine line with
    | none => rw [cookieNameOf, hp] at hname; simp at hname
    | some t =>
      obtain ⟨n, v, attrs⟩ := t
      rw [cookieNameOf, hp] at hname
      simp only [Option.map_some', Option.some.injEq] at hname
      have hparts : modifyCookieParts line d = none := by
        unfold modifyCookieParts
        rw [hp]
        replace hname : n = AUTH1 := hname
        simp [hname]
      rw [modifyCookieString, hparts]
      rfl
  · intro resolve enc d lang h out hout
    simp only [modifyRespHeaders] at hout
    rcases List.mem_append.mp hout with hmem | hmem
    · obtain ⟨c, hc, hmod⟩ := List.mem_filterMap.mp hmem
      rw [modifyCookieString] at hmod
      cases hp : modifyCookieParts c d with
      | none => rw [hp] at hmod; simp at hmod
      | some ps =>
        rw [hp] at hmod
        simp only [Option.map_some', Option.some.injEq] at hmod
        obtain ⟨n, v, attrs, hparse, hnA, hps⟩ := modifyCookieParts_eq hp
        obtain ⟨hn, hnq, hnsemi, hh⟩ := parseCookieLine_props hparse
        rw [hps] at hmod
        obtain ⟨w, hw⟩ := joinSep_base_shape n v
          (dedupFirstAux [n ++ '=' :: v]
            ((cookieAttrLoop d attrs).1 ++
              (if (cookieAttrLoop d attrs).2 = true then [] else [dAttrOf d]) ++
              [str "Secure", str "SameSite=None"]))
        rw [hw] at hmod
        obtain ⟨v', rest', hpar⟩ := cookieNameOf_name_eq hn hnq hnsemi hh (w := w)
        rw [← hmod, cookieNameOf, hpar]
        intro hcon
        simp only [Option.map_some', Option.some.injEq] at hcon
        exact hnA hcon
    · simp only [List.mem_singleton] at hmem
      subst hmem
      have h0 : str "siteLanguage=" = str "siteLanguage" ++ ['='] := by decide
      have hshape : siteLanguageCookieStr enc d lang =
          str "siteLanguage" ++ '=' ::
            (enc (if lang = some (str "zh") then str "zh" else str "en") ++
              (str "; Max-Age=31536000; Domain=" ++
                (d ++ str "; Path=/; Secure; SameSite=None"))) := by
        simp only [siteLanguageCookieStr, h0]
        simp [List.append_assoc]
      rw [hshape]
      obtain ⟨v', rest', hpar⟩ :=
        cookieNameOf_name_eq (n := str "siteLanguage") (by decide) (by decide)
          (by decide)
          (by
            intro c hc
            have h1 : (str "siteLanguage").head? = some 's' := rfl
            rw [h1] at hc
            injection hc with h2
            rw [← h2]
            decide)
      rw [cookieNameOf, hpar]
      intro hcon
      simp only [Option.map_some', Option.some.injEq] at hcon
      exact absurd hcon (by decide)

/-- Witness for C7: the auth-named upstream cookie is dropped, and a
forwarded rewritten cookie keeps its own (non-auth) name. -/
theorem C7_auth_cookie_drop_w :
    modifyCookieString (str "proxy_auth_session=evil; Path=/")
        (str "proxy.example") = none ∧
    cookieNameOf
        (str "sessionid=abc; Domain=proxy.example; Secure; SameSite=None") ≠
      some AUTH1 :=
  ⟨C7_auth_cookie_drop.1 (str "proxy_auth_session=evil; Path=/")
      (str "proxy.example") (by decide),
   C7_auth_cookie_drop.2 (fun _ => none) (fun s => s) (str "proxy.example")
      none ⟨none, [str "sessionid=abc"], none⟩
      (str "sessionid=abc; Domain=proxy.example; Secure; SameSite=None")
      (by decide)⟩

/-- C8 counterexample: an upstream line `Domain=example.com` (a cookie
literally NAMED `Domain`) rewritten for proxy domain `example.com`: the
injected `Domain=example.com` attribute is textually identical to the
leading name=value pair, so the `[...new Set(...)]` deduplication
(`main.ts` 304) removes it and the forwarded cookie has NO `Domain`
attribute at all among its attribute positions — refuting "contains a
Domain attribute equal to the configured proxy domain ... regardless of
the upstream's original attributes". -/
theorem C8_counterexample :
    modifyCookieParts (str "Domain=example.com") (str "example.com") =
      some [str "Domain=example.com", str "Secure", str "SameSite=None"] ∧
    modifyCookieString (str "Domain=example.com") (str "example.com") =
      some (str "Domain=example.com; Secure; SameSite=None") ∧
    (str "domain=").isPrefixOf (lower (str "Secure")) = false ∧
    (str "domain=").isPrefixOf (lower (str "SameSite=None")) = false := by
  decide

/-- C8 (amended): every `Set-Cookie` line that `modifyCookieString`
forwards consists of the original `name=value` pair followed by
attributes among which `Domain=<proxy domain>` (replacing any upstream
domain or appended), `Secure`, and `SameSite=None` all occur, and every
domain attribute equals `Domain=<proxy domain>` — EXCEPT that when the
cookie's own `name=value` pair is textually identical to the injected
`Domain=<proxy domain>` (resp. `SameSite=None`) string, the Set-based
deduplication removes that injected attribute. -/
theorem C8_amended :
    ∀ (line d : Str) (ps : List Str),
      modifyCookieParts line d = some ps →
      ∃ b rest, ps = b :: rest ∧ '=' ∈ b ∧
        (b ≠ dAttrOf d → dAttrOf d ∈ rest) ∧
        str "Secure" ∈ rest ∧
        (b ≠ str "SameSite=None" → str "SameSite=None" ∈ rest) ∧
        (∀ a ∈ rest, (str "domain=").isPrefixOf (lower a) = true →
          a = dAttrOf d) := by
  intro line d ps h
  obtain ⟨n, v, attrs, hparse, hnA, hps⟩ := modifyCookieParts_eq h
  refine ⟨n ++ '=' :: v, _, hps, ?_, ?_, ?_, ?_, ?_⟩
  · exact List.mem_append_right n (List.mem_cons_self '=' v)
  · intro hne
    rw [mem_dedupFirstAux]
    constructor
    · by_cases hdom : (cookieAttrLoop d attrs).2 = true
      · exact List.mem_append_left _
          (List.mem_append_left _ (cookieAttrLoop_dom_mem hdom))
      · refine List.mem_append_left _ (List.mem_append_right _ ?_)
        rw [if_neg hdom]
        exact List.mem_cons_self _ _
    · intro hc
      rw [List.mem_singleton] at hc
      exact hne hc.symm
  · rw [mem_dedupFirstAux]
    constructor
    · exact List.mem_append_right _ (List.mem_cons_self _ _)
    · intro hc
      rw [List.mem_singleton] at hc
      have : '=' ∈ str "Secure" := by
        rw [hc]
        exact List.mem_append_right n (List.mem_cons_self '=' v)
      exact absurd this (by decide)
  · intro hne
    rw [mem_dedupFirstAux]
    constructor
    · exact List.mem_append_right _
        (List.mem_cons_of_mem _ (List.mem_cons_self _ _))
    · intro hc
      rw [List.mem_singleton] at hc
      exact hne hc.symm
  · intro a ha hdom'
    have haX := (mem_dedupFirstAux _ _).mp ha
    rcases List.mem_append.mp haX.1 with h1 | h1
    · rcases List.mem_append.mp h1 with h2 | h2
      · exact cookieAttrLoop_domain_attr a h2 hdom'
      · by_cases hdom : (cookieAttrLoop d attrs).2 = true
        · rw [if_pos hdom] at h2
          cases h2
        · rw [if_neg hdom, List.mem_singleton] at h2
          exact h2
    · rcases List.mem_cons.mp h1 with rfl | h1
      · exact absurd hdom' (by decide)
      · rw [List.mem_singleton] at h1
        subst h1
        exact absurd hdom' (by decide)

/-- Witness for C8 (amended) on a typical upstream cookie line. -/
theorem C8_amended_w :
    ∃ b rest,
      ([str "sessionid=abc123", str "Domain=myproxy.example", str "Path=/",
        str "HttpOnly", str "Secure", str "SameSite=None"] : List Str) =
        b :: rest ∧ '=' ∈ b ∧
      (b ≠ dAttrOf (str "myproxy.example") →
        dAttrOf (str "myproxy.example") ∈ rest) ∧
      str "Secure" ∈ rest ∧
      (b ≠ str "SameSite=None" → str "SameSite=None" ∈ rest) ∧
      (∀ a ∈ rest, (str "domain=").isPrefixOf (lower a) = true →
        a = dAttrOf (str "myproxy.example")) :=
  C8_amended
    (str "sessionid=abc123; Domain=.old.example; Path=/; HttpOnly; SameSite=Strict; Secure")
    (str "myproxy.example")
    [str "sessionid=abc123", str "Domain=myproxy.example", str "Path=/",
      str "HttpOnly", str "Secure", str "SameSite=None"]
    (by decide)
